import Mathlib

/-!
# Verification of the collab-graph core

Shallow embedding of the graph-visualization core:

* the curvature assignment policy (`linkCurvatures` in
  `src/graph/hooks/usePixi.ts`),
* the edge geometry resolver (`getRectEdgePoint` / `drawLink` in
  `src/graph/drawing.ts`),
* the simulation wrapper operations (`startDragNode` / `dragNode` /
  `endDragNode` / `updateSimulationNodes` in `src/graph/simulation.ts`)
  together with a tick step for the force integration that the code
  delegates to the `d3-force` dependency,
* the store mutation `deleteNode` (`src/graph/store.ts`) and the
  pointer-up handler `onPointerUpGlobal` (`src/graph/hooks/usePixi.ts`).

Numbers are embedded as exact rationals (`ℚ`) where every operation of the
source is a field operation, and as real numbers (`ℝ`) where the source
uses `Math.sqrt` / trigonometry.  JavaScript `Math.atan2` never appears by
itself: the source only consumes `cos`/`sin` of the produced angles, and
those compose to algebraic expressions in the input coordinates, which is
how they are embedded (`dirCos` / `dirSin` below).
-/

namespace CollabGraph

/-! ## Links and the curvature assignment policy

From `src/graph/hooks/usePixi.ts`, `linkCurvatures`.  A link record carries
its id and the two endpoint ids (in the source, `link.source` / `link.target`
may hold either the id or the resolved node object; both cases reduce to the
id, which is what the embedding stores). -/

structure GLink where
  id : String
  sourceId : String
  targetId : String
  deriving DecidableEq, Repr

/-- The grouping key:
`sourceId < targetId ? sourceId+"-"+targetId : targetId+"-"+sourceId`. -/
def pairKey (l : GLink) : String :=
  if l.sourceId < l.targetId then l.sourceId ++ "-" ++ l.targetId
  else l.targetId ++ "-" ++ l.sourceId

/-- One step of building the `linkGroups` map: `linkGroups.get(key).push(link)`,
creating the entry on first sight of the key.  JavaScript `Map` iterates in
key-insertion order, so the map is embedded as an association list to which
new keys are appended. -/
def insertGrouped (acc : List (String × List GLink)) (l : GLink) :
    List (String × List GLink) :=
  match acc with
  | [] => [(pairKey l, [l])]
  | (k, g) :: rest =>
      if k = pairKey l then (k, g ++ [l]) :: rest
      else (k, g) :: insertGrouped rest l

/-- `links.forEach(...)` building the group map. -/
def linkGroups (links : List GLink) : List (String × List GLink) :=
  links.foldl insertGrouped []

/-- `group.sort((a, b) => a.id.localeCompare(b.id))`, embedded as a stable
sort by lexicographic order on the id (`localeCompare` is locale dependent;
lexicographic order is its behaviour on the ASCII ids the program uses, and
is the reading the specification fixes).  The comparator `a.id ≤ b.id` is
written `¬ b.id < a.id`, its definition on strings. -/
def sortGroup (g : List GLink) : List GLink :=
  g.mergeSort (fun a b => ! decide (b.id < a.id))

/-- `curvatures.set(k, v)` on a JavaScript `Map`: overwrite if present,
append otherwise. -/
def mapSet (m : List (String × ℚ)) (k : String) (v : ℚ) :
    List (String × ℚ) :=
  match m with
  | [] => [(k, v)]
  | (k', v') :: rest =>
      if k' = k then (k, v) :: rest else (k', v') :: mapSet rest k v

/-- `Map.get`, for reading either map (curvatures or link groups). -/
def mapGet {β : Type} (m : List (String × β)) (k : String) : Option β :=
  match m with
  | [] => none
  | (k', v) :: rest => if k' = k then some v else mapGet rest k

/-- The per-group body of `linkGroups.forEach` in `linkCurvatures`:
empty group → nothing; singleton → base curvature `0.15`; otherwise sort by
id and assign `(i - (total - 1) / 2) * 0.25`. -/
def assignGroup (m : List (String × ℚ)) (g : List GLink) :
    List (String × ℚ) :=
  match g with
  | [] => m
  | [l] => mapSet m l.id (15 / 100)
  | _ =>
      let total := g.length
      let sorted := sortGroup g
      let step : ℚ := 25 / 100
      let center : ℚ := ((total : ℚ) - 1) / 2
      sorted.enum.foldl (fun m' il => mapSet m' il.2.id (((il.1 : ℚ) - center) * step)) m

/-- `linkCurvatures` from `src/graph/hooks/usePixi.ts`: group, then assign. -/
def linkCurvatures (links : List GLink) : List (String × ℚ) :=
  (linkGroups links).foldl (fun m kg => assignGroup m kg.2) []

/-! ### Claim-side definitions for the curvature policy

These follow the specification's words ("groups links by the unordered pair
of endpoint ids", "sorted lexically by link id", "(i − (n−1)/2) × step"),
to be compared with `linkCurvatures` above. -/

/-- Two links have the same unordered pair of endpoint ids. -/
def sameEndpoints (a b : GLink) : Prop :=
  (a.sourceId = b.sourceId ∧ a.targetId = b.targetId) ∨
  (a.sourceId = b.targetId ∧ a.targetId = b.sourceId)

instance : DecidableRel sameEndpoints := fun _ _ => by
  unfold sameEndpoints; infer_instance

/-- The specification's group of a link: all links sharing its unordered
endpoint pair, sorted lexically by link id. -/
def specGroup (links : List GLink) (l : GLink) : List GLink :=
  sortGroup (links.filter (fun x => decide (sameEndpoints l x)))

/-- The specification's base curvature of a link within a link collection:
`0.15` for a singleton group, `(i − (n−1)/2) × 0.25` for the `i`-th link
(lexically by id) of a group of size `n > 1`. -/
def specCurvature (links : List GLink) (l : GLink) : ℚ :=
  let g := specGroup links l
  if g.length ≤ 1 then 15 / 100
  else ((g.findIdx (fun x => x.id = l.id) : ℚ) - ((g.length : ℚ) - 1) / 2) * (25 / 100)

/-- No '-' occurs in the string (the grouping key joins the two endpoint ids
with '-', so ids containing '-' can make distinct unordered pairs collide). -/
def dashFree (s : String) : Prop := ¬ '-' ∈ s.data

instance : DecidablePred dashFree := fun s => by
  unfold dashFree; infer_instance

/-! ## Node records

`src/graph/store.ts` declares `Node extends SimulationNodeDatum, NodeData`
with `width`/`height`; the simulation fields `x, y, vx, vy, fx, fy` are all
optional numbers.  The field `pinned` is read by `usePixi.ts`
(`endDragNode(nodeId, !node?.pinned)`); the store revision declaring it is
not part of the snapshot, so it is modelled from the spec: "a persistent
`pinned` boolean distinct from the transient fix".  The record is
parametric in the number type: `ℚ` where only field operations occur,
`ℝ` for the geometry. -/

structure GNode (α : Type) where
  id : String
  label : String := ""
  width : Option α := none
  height : Option α := none
  x : Option α := none
  y : Option α := none
  vx : Option α := none
  vy : Option α := none
  fx : Option α := none
  fy : Option α := none
  pinned : Bool := false
  deriving DecidableEq, Repr

/-! ## The simulation wrapper (`src/graph/simulation.ts`)

The module keeps one nullable `simulation` holding the d3 simulation; its
observable state for the claims is the node array plus the alpha
controls. -/

structure SimState (α : Type) where
  nodes : List (GNode α)
  alpha : α
  alphaTarget : α
  deriving DecidableEq, Repr

/-- `simulation.nodes().find(n => n.id === nodeId)` followed by a mutation
of the found node mutates the first match only. -/
def updateFirst (l : List β) (p : β → Bool) (f : β → β) : List β :=
  match l with
  | [] => []
  | x :: xs => if p x then f x :: xs else x :: updateFirst xs p f

variable {α : Type} [Field α]

/-- `startDragNode`: no-op without a simulation; otherwise
`alphaTarget(0.3).restart()` and pin the found node at its position. -/
def startDragNode (sim : Option (SimState α)) (nodeId : String) :
    Option (SimState α) :=
  match sim with
  | none => none
  | some st =>
      some { st with
        alphaTarget := 3 / 10
        nodes := updateFirst st.nodes (fun n => decide (n.id = nodeId))
          (fun n => { n with fx := n.x, fy := n.y }) }

/-- `dragNode`: move the pin of the found node to `(x, y)`. -/
def dragNode (sim : Option (SimState α)) (nodeId : String) (x y : α) :
    Option (SimState α) :=
  match sim with
  | none => none
  | some st =>
      some { st with
        nodes := updateFirst st.nodes (fun n => decide (n.id = nodeId))
          (fun n => { n with fx := some x, fy := some y }) }

/-- `endDragNode(nodeId, unfreeze = true)`: `alphaTarget(0)`; when
`unfreeze`, clear `fx`/`fy` of the found node (a missing id finds nothing
and mutates nothing). -/
def endDragNode (sim : Option (SimState α)) (nodeId : String)
    (unfreeze : Bool) : Option (SimState α) :=
  match sim with
  | none => none
  | some st =>
      let st := { st with alphaTarget := 0 }
      if unfreeze then
        some { st with
          nodes := updateFirst st.nodes (fun n => decide (n.id = nodeId))
            (fun n => { n with fx := none, fy := none }) }
      else some st

/-- The merge step of `updateSimulationNodes`: a new node whose id already
exists in the simulation receives the old node's motion state. -/
def mergeNode (oldNodes : List (GNode α)) (n : GNode α) : GNode α :=
  match oldNodes.find? (fun o => decide (o.id = n.id)) with
  | some o => { n with x := o.x, y := o.y, vx := o.vx, vy := o.vy,
                       fx := o.fx, fy := o.fy }
  | none => n

/-- `updateSimulationNodes(nodes)`: merge motion state by id, replace the
node array, `alpha(0.3).restart()`. -/
def updateSimulationNodes (sim : Option (SimState α))
    (newNodes : List (GNode α)) : Option (SimState α) :=
  match sim with
  | none => none
  | some st =>
      some { st with nodes := newNodes.map (mergeNode st.nodes),
                     alpha := 3 / 10 }

/-! ## The tick step

`simulation.ts` delegates the per-tick force integration to the `d3-force`
dependency, whose source is not part of the repository.  Modelled from the
spec: "integrate velocity by accumulated force scaled by a decaying energy
term ('alpha'), apply a velocity-decay factor, integrate position; nodes
with fx/fy are forced to that exact coordinate each tick with velocity
zeroed, overriding integration.  Alpha decays geometrically toward zero
each tick" (spec §4.1).  The accumulated per-node force is a parameter of
the step, so the pinned-node theorem quantifies over every possible force
("unaffected by repulsion or any other force"); a concrete force
assignment following the spec's force inventory is defined below. -/

/-- Modelled from the spec: the multiplicative velocity-decay factor
(d3's default; its exact value is immaterial to the claims). -/
def velocityDecay : ℚ := 6 / 10

/-- Modelled from the spec: the geometric alpha-decay rate (d3's default is
`1 − 0.001^(1/300)`; its exact value is immaterial to the claims). -/
def alphaDecay : ℚ := 1 / 50

/-- Modelled from the spec: one node's integration inside a tick.  The two
axes are treated independently, each either overridden by the pin or
integrated from the accumulated force `f`. -/
def integrateNode (f : String → α × α) (alpha : α) (n : GNode α) : GNode α :=
  let n1 :=
    match n.fx with
    | some px => { n with x := some px, vx := some 0 }
    | none =>
        let vx := (n.vx.getD 0 + (f n.id).1 * alpha) * (velocityDecay : ℚ)
        { n with vx := some vx, x := some (n.x.getD 0 + vx) }
  match n1.fy with
  | some py => { n1 with y := some py, vy := some 0 }
  | none =>
      let vy := (n1.vy.getD 0 + (f n1.id).2 * alpha) * (velocityDecay : ℚ)
      { n1 with vy := some vy, y := some (n1.y.getD 0 + vy) }

/-- Modelled from the spec: one completed simulation tick — decay alpha
toward the target, then integrate every node. -/
def tick (f : String → α × α) (st : SimState α) : SimState α :=
  let alpha' := st.alpha + (st.alphaTarget - st.alpha) * (alphaDecay : ℚ)
  { st with alpha := alpha', nodes := st.nodes.map (integrateNode f alpha') }

/-! ## The store (`src/graph/store.ts`) and the pointer-up handler -/

structure StoreState where
  nodes : List (GNode ℚ)
  links : List GLink
  deriving DecidableEq, Repr

/-- `deleteNode(nodeId)`: drop the node and every link touching it. -/
def deleteNode (s : StoreState) (nodeId : String) : StoreState :=
  { nodes := s.nodes.filter (fun n => decide (n.id ≠ nodeId))
    links := s.links.filter
      (fun l => decide (l.sourceId ≠ nodeId) && decide (l.targetId ≠ nodeId)) }

/-- The interaction coordinator's transient pointer state in `usePixi.ts`. -/
structure UIState where
  activeDragTargetId : Option String
  isPanning : Bool
  deriving DecidableEq, Repr

/-- `onPointerUpGlobal` (`src/graph/hooks/usePixi.ts`), registered for both
`pointerup` and `pointerupoutside`: when a drag is active, look the node up
in the latest store nodes, call `endDragNode(nodeId, !node?.pinned)` and
clear the drag target; always stop panning.  The returned Bool records
whether `endDragNode` was called. -/
def onPointerUpGlobal (ui : UIState) (storeNodes : List (GNode α))
    (sim : Option (SimState α)) :
    UIState × Option (SimState α) × Bool :=
  match ui.activeDragTargetId with
  | some nodeId =>
      let node := storeNodes.find? (fun n => decide (n.id = nodeId))
      let unfreeze :=
        match node with
        | some n => ! n.pinned
        | none => true
      (⟨none, false⟩, endDragNode sim nodeId unfreeze, true)
  | none => (⟨ui.activeDragTargetId, false⟩, sim, false)

/-! ## The edge geometry resolver (`src/graph/drawing.ts`)

The snapshot holds two revisions of `drawing.ts`; the current one (the one
`usePixi.ts` is written against — it imports the three-argument `drawNode`
and the pin icon) carries the dynamic-curvature block and the
tangent-aligned arrowhead, and is the one embedded here.

The source computes `angle = Math.atan2(dy, dx)` and then only ever uses
`Math.cos`/`Math.sin` of `angle` and of `angle - Math.PI / 2`; those have
the closed forms `dx / len`, `dy / len`, `dy / len`, `-dx / len` with
`len = Math.sqrt(dx*dx + dy*dy)` (and `cos = 1`, `sin = 0` for the zero
vector, since `Math.atan2(0, 0) = 0`).  The embedding uses these closed
forms. -/

/-- `Math.cos(Math.atan2(dy, dx))`. -/
noncomputable def dirCos (dx dy : ℝ) : ℝ :=
  if dx = 0 ∧ dy = 0 then 1 else dx / Real.sqrt (dx ^ 2 + dy ^ 2)

/-- `Math.sin(Math.atan2(dy, dx))`. -/
noncomputable def dirSin (dx dy : ℝ) : ℝ :=
  if dx = 0 ∧ dy = 0 then 0 else dy / Real.sqrt (dx ^ 2 + dy ^ 2)

/-- `getRectEdgePoint(sourcePoint, targetNode)`: the point where the segment
from `sourcePoint` to the target's center crosses the target's rectangle
boundary.  `tx = targetNode.x ?? 0`; `!targetW || !targetH` (undefined or 0
extents) falls back to the center; near-coincident points fall back to the
center; otherwise the slope comparison picks a vertical or horizontal
rectangle edge.  In JavaScript `dx = 0` makes `slopeY = dy/dx` infinite,
which fails the `< halfH/halfW` test and lands in the horizontal branch
where only `slopeX = dx/dy = 0` is used; the embedding encodes that by the
explicit `dx ≠ 0` conjunct. -/
noncomputable def getRectEdgePoint (sp : ℝ × ℝ) (t : GNode ℝ) : ℝ × ℝ :=
  let sx := sp.1
  let sy := sp.2
  let tx := t.x.getD 0
  let ty := t.y.getD 0
  if t.width.getD 0 = 0 ∨ t.height.getD 0 = 0 then (tx, ty)
  else
    let dx := tx - sx
    let dy := ty - sy
    if |dx| < 1 / 1000000 ∧ |dy| < 1 / 1000000 then (tx, ty)
    else
      let halfW := t.width.getD 0 / 2
      let halfH := t.height.getD 0 / 2
      if dx ≠ 0 ∧ |dy / dx| < halfH / halfW then
        if dx > 0 then (tx - halfW, ty - halfW * (dy / dx))
        else (tx + halfW, ty + halfW * (dy / dx))
      else
        if dy > 0 then (tx - halfH * (dx / dy), ty - halfH)
        else (tx + halfH * (dx / dy), ty + halfH)

/-- The drawable path produced by `drawLink`: a straight segment or a
quadratic curve with its control point. -/
inductive LinkPath
  | line (s e : ℝ × ℝ)
  | quad (s c e : ℝ × ℝ)

/-- Whether a drawn path is a straight segment (`moveTo`/`lineTo`) rather
than a quadratic curve. -/
def LinkPath.isLine : LinkPath → Bool
  | .line _ _ => true
  | .quad _ _ _ => false

/-- What one `drawLink` call draws: the path, the signed curvature it used,
the cosine/sine of the arrowhead angle, and the two arrowhead wing
points. -/
structure LinkDraw where
  path : LinkPath
  curvature : ℝ
  arrowCos : ℝ
  arrowSin : ℝ
  arrowP1 : ℝ × ℝ
  arrowP2 : ℝ × ℝ

/-- An arrowhead wing point `e − 8·(cos(Θ − π/7), sin(Θ − π/7))`, with the
angle difference expanded over the arrowhead angle's cosine and sine. -/
noncomputable def arrowWing1 (e : ℝ × ℝ) (aCos aSin : ℝ) : ℝ × ℝ :=
  (e.1 - 8 * (aCos * Real.cos (Real.pi / 7) + aSin * Real.sin (Real.pi / 7)),
   e.2 - 8 * (aSin * Real.cos (Real.pi / 7) - aCos * Real.sin (Real.pi / 7)))

/-- The other wing point `e − 8·(cos(Θ + π/7), sin(Θ + π/7))`. -/
noncomputable def arrowWing2 (e : ℝ × ℝ) (aCos aSin : ℝ) : ℝ × ℝ :=
  (e.1 - 8 * (aCos * Real.cos (Real.pi / 7) - aSin * Real.sin (Real.pi / 7)),
   e.2 - 8 * (aSin * Real.cos (Real.pi / 7) + aCos * Real.sin (Real.pi / 7)))

/-- The dynamic-curvature block of `drawLink` (the body of
`if (graphCenter)`), acting on the padded endpoints `s`, `e`, the base
curvature, and the center: pick the sign from the dot product of
(midpoint − center) with the segment normal (`Math.sign(d) || 1`), and the
magnitude `(|base| + 0.15) · sinθ · min(len/300, 1)` where `θ` is the angle
between the padded segment and the segment from its start to the center. -/
noncomputable def dynamicCurvature (sx sy ex ey : ℝ) (base : ℝ)
    (cosA sinA : ℝ) (c : ℝ × ℝ) : ℝ :=
  let vseX := ex - sx
  let vseY := ey - sy
  let lenSE := Real.sqrt (vseX ^ 2 + vseY ^ 2)
  if lenSE > 1 / 1000000 then
    let vscX := c.1 - sx
    let vscY := c.2 - sy
    let lenSC := Real.sqrt (vscX ^ 2 + vscY ^ 2)
    let cosTheta :=
      if lenSC > 1 / 1000000 then
        (vseX * vscX + vseY * vscY) / (lenSE * lenSC)
      else 0
    let sinTheta := Real.sqrt (1 - max 0 (min 1 (cosTheta ^ 2)))
    let distanceFactor := min (lenSE / 300) 1
    let magnitude := (|base| + 15 / 100) * sinTheta * distanceFactor
    let midX := (sx + ex) / 2
    let midY := (sy + ey) / 2
    let normalX := sinA
    let normalY := -cosA
    let dotProduct := (midX - c.1) * normalX + (midY - c.2) * normalY
    let direction : ℝ :=
      if dotProduct > 0 then 1 else if dotProduct < 0 then -1 else 1
    direction * magnitude
  else base

/-- `drawLink(linkGfx, sourceNode, targetNode, baseCurvature, graphCenter)`
from the current `drawing.ts`.  `none` is the early `return` (nothing
drawn): any endpoint coordinate that is undefined or exactly `0` is falsy
and aborts the call.  Otherwise: rectangle-boundary endpoints, a
3-pixel padding along the raw segment direction, the dynamic curvature when
a center is supplied, then either a straight segment (curvature 0, arrow
along the raw segment angle) or a quadratic curve whose arrowhead angle is
`Math.atan2(ey - ctrlY, ex - ctrlX)` — the direction from the control point
to the padded end point. -/
noncomputable def drawLink (sN tN : GNode ℝ) (base : ℝ)
    (graphCenter : Option (ℝ × ℝ)) : Option LinkDraw :=
  if sN.x.getD 0 = 0 ∨ sN.y.getD 0 = 0 ∨ tN.x.getD 0 = 0 ∨ tN.y.getD 0 = 0
  then none
  else
    let startP := getRectEdgePoint (tN.x.getD 0, tN.y.getD 0) sN
    let endP := getRectEdgePoint (sN.x.getD 0, sN.y.getD 0) tN
    let dx := endP.1 - startP.1
    let dy := endP.2 - startP.2
    let cosA := dirCos dx dy
    let sinA := dirSin dx dy
    let sx := startP.1 + 3 * cosA
    let sy := startP.2 + 3 * sinA
    let ex := endP.1 - 3 * cosA
    let ey := endP.2 - 3 * sinA
    let curvature :=
      match graphCenter with
      | none => base
      | some c => dynamicCurvature sx sy ex ey base cosA sinA c
    if curvature = 0 then
      some { path := .line (sx, sy) (ex, ey)
             curvature := curvature
             arrowCos := cosA
             arrowSin := sinA
             arrowP1 := arrowWing1 (ex, ey) cosA sinA
             arrowP2 := arrowWing2 (ex, ey) cosA sinA }
    else
      let curveIntensity := Real.sqrt (dx ^ 2 + dy ^ 2) * curvature
      let ctrlX := (sx + ex) / 2 + sinA * curveIntensity
      let ctrlY := (sy + ey) / 2 + (-cosA) * curveIntensity
      let aCos := dirCos (ex - ctrlX) (ey - ctrlY)
      let aSin := dirSin (ex - ctrlX) (ey - ctrlY)
      some { path := .quad (sx, sy) (ctrlX, ctrlY) (ex, ey)
             curvature := curvature
             arrowCos := aCos
             arrowSin := aSin
             arrowP1 := arrowWing1 (ex, ey) aCos aSin
             arrowP2 := arrowWing2 (ex, ey) aCos aSin }

/-- Claim-side definition for the dynamic-curvature claim: the sine of the
angle between the padded segment and the direction from the centroid to the
segment midpoint ("sin(angle between the segment and the centroid-to-
midpoint direction)"), as `|cross| / (‖u‖·‖v‖)`. -/
noncomputable def specClaimSin (sx sy ex ey : ℝ) (c : ℝ × ℝ) : ℝ :=
  let uX := ex - sx
  let uY := ey - sy
  let vX := (sx + ex) / 2 - c.1
  let vY := (sy + ey) / 2 - c.2
  |uX * vY - uY * vX| /
    (Real.sqrt (uX ^ 2 + uY ^ 2) * Real.sqrt (vX ^ 2 + vY ^ 2))

/-! ## Helper lemmas -/

theorem updateFirst_of_forall_not {l : List β} {p : β → Bool} {f : β → β}
    (h : ∀ x ∈ l, p x = false) : updateFirst l p f = l := by
  induction l with
  | nil => rfl
  | cons x xs ih =>
      rw [updateFirst, if_neg (by simp [h x (List.mem_cons_self x xs)]),
        ih (fun y hy => h y (List.mem_cons_of_mem x hy))]

theorem find?_updateFirst {l : List β} {p : β → Bool} {f : β → β}
    (hpf : ∀ x, p x = true → p (f x) = true) :
    (updateFirst l p f).find? p = (l.find? p).map f := by
  induction l with
  | nil => rfl
  | cons x xs ih =>
      by_cases hx : p x = true
      · simp [updateFirst, hx, List.find?_cons, hpf x hx]
      · have hx' : p x = false := by simpa using hx
        simp [updateFirst, hx', List.find?_cons, ih]

/-! ## C2 — pinned nodes are reported exactly at their pin after a tick -/

/-- C2: for every node whose fx/fy pin is set, the position reported after
any completed simulation tick equals (fx, fy) exactly, with velocity zeroed,
for every possible accumulated force — so repulsion or any other force
cannot move it. -/
theorem pinned_node_position_after_tick {α : Type} [Field α]
    (f : String → α × α) (st : SimState α) :
    ∀ m ∈ (tick f st).nodes,
      (∀ px, m.fx = some px → m.x = some px ∧ m.vx = some 0) ∧
      (∀ py, m.fy = some py → m.y = some py ∧ m.vy = some 0) := by
  intro m hm
  rw [tick] at hm
  simp only [List.mem_map] at hm
  obtain ⟨n, _, rfl⟩ := hm
  cases hfx : n.fx <;> cases hfy : n.fy <;>
    simp [integrateNode, hfx, hfy]

/-- Witness for C2, the drag scenario: node "A" is dragged to (500, 500),
pinning it there; a completed tick under a nonzero force field reports "A"
at exactly (500, 500) with zero velocity. -/
theorem pinned_node_position_after_tick_witness :
    (dragNode (some (⟨[{ id := "A", x := some 10, y := some 20 },
                       { id := "B", x := some 30, y := some 40 }], 1, 0⟩ :
        SimState ℚ)) "A" 500 500 =
      some ⟨[{ id := "A", x := some 10, y := some 20,
               fx := some 500, fy := some 500 },
             { id := "B", x := some 30, y := some 40 }], 1, 0⟩) ∧
    ({ id := "A", x := some 500, y := some 500, vx := some 0, vy := some 0,
       fx := some 500, fy := some 500 } : GNode ℚ) ∈
      (tick (fun _ => ((7 : ℚ), (-3 : ℚ)))
        ⟨[{ id := "A", x := some 10, y := some 20,
            fx := some 500, fy := some 500 },
          { id := "B", x := some 30, y := some 40 }], 1, 0⟩).nodes ∧
    (({ id := "A", x := some 500, y := some 500, vx := some 0, vy := some 0,
        fx := some 500, fy := some 500 } : GNode ℚ).x = some 500 ∧
      ({ id := "A", x := some 500, y := some 500, vx := some 0, vy := some 0,
         fx := some 500, fy := some 500 } : GNode ℚ).vx = some 0) := by
  refine ⟨by decide, by decide, ?_⟩
  exact (pinned_node_position_after_tick (fun _ => ((7 : ℚ), (-3 : ℚ)))
    ⟨[{ id := "A", x := some 10, y := some 20,
        fx := some 500, fy := some 500 },
      { id := "B", x := some 30, y := some 40 }], 1, 0⟩
    _ (by decide)).1 500 (by decide)

/-! ## C9 — any endpoint coordinate that is undefined or exactly 0 skips
the link -/

/-- C9: `!sourceNode.x || !sourceNode.y || !targetNode.x || !targetNode.y`
treats an exact 0 the same as undefined, so a node sitting exactly on an
axis has all its incident edges skipped (nothing drawn), even when both
nodes have valid extents. -/
theorem zero_coordinate_skips_link (sN tN : GNode ℝ) (base : ℝ)
    (gc : Option (ℝ × ℝ))
    (h : sN.x = none ∨ sN.x = some 0 ∨ sN.y = none ∨ sN.y = some 0 ∨
         tN.x = none ∨ tN.x = some 0 ∨ tN.y = none ∨ tN.y = some 0) :
    drawLink sN tN base gc = none := by
  have hc : sN.x.getD 0 = 0 ∨ sN.y.getD 0 = 0 ∨
      tN.x.getD 0 = 0 ∨ tN.y.getD 0 = 0 := by
    rcases h with h | h | h | h | h | h | h | h <;> simp [h]
  rw [drawLink, if_pos hc]

/-- Witness for C9: a node with valid extents at `x = 0` (on the y-axis)
has its edge to a perfectly ordinary node skipped. -/
theorem zero_coordinate_skips_link_witness :
    ({ id := "A", x := some 0, y := some 5, width := some 150,
       height := some 50 } : GNode ℝ).x = some 0 ∧
    drawLink
      { id := "A", x := some 0, y := some 5, width := some 150,
        height := some 50 }
      { id := "B", x := some 100, y := some 100, width := some 150,
        height := some 50 } 1 none = none :=
  ⟨rfl, zero_coordinate_skips_link _ _ _ _ (Or.inr (Or.inl rfl))⟩

/-! ## C7 — pointer-up ends the drag; the pin is released unless `pinned` -/

/-- C7: pointer-up with an active drag always calls `endDragNode`, clears
the drag target, and releases the node's fx/fy pin exactly when the node's
persistent `pinned` flag is not set; a `pinned` node keeps its simulation
state (including fx/fy) unchanged apart from the alpha target. -/
theorem pointer_up_releases_pin_iff_not_pinned {α : Type} [Field α]
    (ui : UIState) (storeNodes : List (GNode α)) (st : SimState α)
    (nodeId : String) (node simNode : GNode α)
    (hui : ui.activeDragTargetId = some nodeId)
    (hfind : storeNodes.find? (fun n => decide (n.id = nodeId)) = some node)
    (hsim : st.nodes.find? (fun n => decide (n.id = nodeId)) = some simNode) :
    (onPointerUpGlobal ui storeNodes (some st)).2.2 = true ∧
    (onPointerUpGlobal ui storeNodes (some st)).1.activeDragTargetId = none ∧
    (node.pinned = false →
      ∃ st', (onPointerUpGlobal ui storeNodes (some st)).2.1 = some st' ∧
        st'.alphaTarget = 0 ∧
        st'.nodes.find? (fun n => decide (n.id = nodeId)) =
          some { simNode with fx := none, fy := none }) ∧
    (node.pinned = true →
      (onPointerUpGlobal ui storeNodes (some st)).2.1 =
        some { st with alphaTarget := 0 }) := by
  obtain ⟨adt, pan⟩ := ui
  simp only [UIState.activeDragTargetId] at hui
  subst hui
  simp only [onPointerUpGlobal, hfind]
  refine ⟨trivial, trivial, ?_, ?_⟩
  · intro hp
    simp only [hp, Bool.not_false, endDragNode, if_pos rfl]
    refine ⟨_, rfl, rfl, ?_⟩
    rw [find?_updateFirst (fun x hx => by simpa using hx)]
    rw [hsim, Option.map_some']
  · intro hp
    simp only [hp, Bool.not_true, endDragNode]
    rfl

/-- Witness for C7: an unpinned node "A" under drag; pointer-up calls
`endDragNode` and its fx/fy pin is cleared. -/
theorem pointer_up_releases_pin_iff_not_pinned_witness :
    (⟨some "A", true⟩ : UIState).activeDragTargetId = some "A" ∧
    ([({ id := "A", x := some 1, y := some 2 } : GNode ℚ)].find?
        (fun n => decide (n.id = "A")) =
      some { id := "A", x := some 1, y := some 2 }) ∧
    ((⟨[{ id := "A", x := some 1, y := some 2, fx := some 500,
          fy := some 500 }], 1, 3 / 10⟩ : SimState ℚ).nodes.find?
        (fun n => decide (n.id = "A")) =
      some { id := "A", x := some 1, y := some 2, fx := some 500,
             fy := some 500 }) ∧
    ((onPointerUpGlobal ⟨some "A", true⟩
        [({ id := "A", x := some 1, y := some 2 } : GNode ℚ)]
        (some ⟨[{ id := "A", x := some 1, y := some 2, fx := some 500,
                  fy := some 500 }], 1, 3 / 10⟩)).2.2 = true ∧
      (onPointerUpGlobal ⟨some "A", true⟩
        [({ id := "A", x := some 1, y := some 2 } : GNode ℚ)]
        (some ⟨[{ id := "A", x := some 1, y := some 2, fx := some 500,
                  fy := some 500 }], 1, 3 / 10⟩)).1.activeDragTargetId =
        none ∧
      (({ id := "A", x := some 1, y := some 2 } : GNode ℚ).pinned = false →
        ∃ st', (onPointerUpGlobal ⟨some "A", true⟩
            [({ id := "A", x := some 1, y := some 2 } : GNode ℚ)]
            (some ⟨[{ id := "A", x := some 1, y := some 2, fx := some 500,
                      fy := some 500 }], 1, 3 / 10⟩)).2.1 = some st' ∧
          st'.alphaTarget = 0 ∧
          st'.nodes.find? (fun n => decide (n.id = "A")) =
            some { ({ id := "A", x := some 1, y := some 2, fx := some 500,
                      fy := some 500 } : GNode ℚ) with
                   fx := none, fy := none }) ∧
      (({ id := "A", x := some 1, y := some 2 } : GNode ℚ).pinned = true →
        (onPointerUpGlobal ⟨some "A", true⟩
          [({ id := "A", x := some 1, y := some 2 } : GNode ℚ)]
          (some ⟨[{ id := "A", x := some 1, y := some 2, fx := some 500,
                    fy := some 500 }], 1, 3 / 10⟩)).2.1 =
          some { (⟨[{ id := "A", x := some 1, y := some 2, fx := some 500,
                      fy := some 500 }], 1, 3 / 10⟩ : SimState ℚ) with
                 alphaTarget := 0 })) :=
  ⟨rfl, by decide, by decide,
    pointer_up_releases_pin_iff_not_pinned _ _ _ _ _ _ rfl (by decide)
      (by decide)⟩

/-! ## C8 — operations on a deleted node id are safe no-ops -/

/-- C8: deleting a node removes it (and its links) from the store, and the
simulation operations called with an id that no longer exists in the
simulation's node array are no-ops on the nodes: `endDragNode` only resets
the alpha target (leaving no fx/fy entry for the id, which is absent
altogether), `dragNode` changes nothing, `startDragNode` only sets the
alpha target — none of them faults. -/
theorem removed_node_drag_ops_are_noops {α : Type} [Field α]
    (st : SimState α) (nodeId : String) (x y : α) (s : StoreState)
    (h : ∀ n ∈ st.nodes, n.id ≠ nodeId) :
    (∀ n ∈ (deleteNode s nodeId).nodes, n.id ≠ nodeId) ∧
    (∀ l ∈ (deleteNode s nodeId).links,
      l.sourceId ≠ nodeId ∧ l.targetId ≠ nodeId) ∧
    endDragNode (some st) nodeId true = some { st with alphaTarget := 0 } ∧
    dragNode (some st) nodeId x y = some st ∧
    startDragNode (some st) nodeId = some { st with alphaTarget := 3 / 10 } := by
  obtain ⟨ns, a, at0⟩ := st
  have hU : ∀ (f : GNode α → GNode α),
      updateFirst ns (fun n => decide (n.id = nodeId)) f = ns := fun f =>
    updateFirst_of_forall_not (fun n hn => by
      simpa using h n hn)
  refine ⟨?_, ?_, ?_, ?_, ?_⟩
  · intro n hn
    simp only [deleteNode, List.mem_filter, decide_not] at hn
    simpa using hn.2
  · intro l hl
    simp only [deleteNode, List.mem_filter, Bool.and_eq_true, decide_not] at hl
    constructor
    · simpa using hl.2.1
    · simpa using hl.2.2
  · simp [endDragNode, hU]
  · simp only [dragNode, hU]
  · simp only [startDragNode, hU]

/-- Witness for C8, the mid-drag deletion scenario: node "A" is deleted
from the store; syncing the simulation drops it there too; `endDragNode "A"`
then only resets the alpha target and leaves no entry (hence no pin) for
"A". -/
theorem removed_node_drag_ops_are_noops_witness :
    (deleteNode
        ⟨[{ id := "A", x := some 1, y := some 2 },
          { id := "B", x := some 5, y := some 6 }], [⟨"lAB", "A", "B"⟩]⟩
        "A" =
      ⟨[{ id := "B", x := some 5, y := some 6 }], []⟩) ∧
    (updateSimulationNodes
        (some (⟨[{ id := "A", x := some 1, y := some 2, fx := some 9,
                   fy := some 9 },
                 { id := "B", x := some 5, y := some 6 }], 1, 3 / 10⟩ :
          SimState ℚ))
        [{ id := "B", x := some 5, y := some 6 }] =
      some ⟨[{ id := "B", x := some 5, y := some 6 }], 3 / 10, 3 / 10⟩) ∧
    (∀ n ∈ ([{ id := "B", x := some 5, y := some 6 }] : List (GNode ℚ)),
      n.id ≠ "A") ∧
    endDragNode
        (some (⟨[{ id := "B", x := some 5, y := some 6 }], 3 / 10, 3 / 10⟩ :
          SimState ℚ)) "A" true =
      some ⟨[{ id := "B", x := some 5, y := some 6 }], 3 / 10, 0⟩ := by
  refine ⟨by decide, rfl, by decide, ?_⟩
  exact (removed_node_drag_ops_are_noops
    (⟨[{ id := "B", x := some 5, y := some 6 }], 3 / 10, 3 / 10⟩ :
      SimState ℚ) "A" 0 0
    ⟨[], []⟩ (by decide)).2.2.1

/-! ## C5 — edge endpoints lie on the rectangle boundary -/

/-- C5: for positive extents and non-near-coincident centers, the point
computed by `getRectEdgePoint` lies on the target rectangle's boundary: on a
vertical edge (x-offset exactly half the width, y-offset at most half the
height) exactly when the absolute slope of the center-to-center line is
below the half-height/half-width ratio, and on a horizontal edge
otherwise.  With curvature 0 this applies symmetrically at both ends, so
the raw path runs boundary-to-boundary. -/
theorem edge_point_on_rect_boundary (sp : ℝ × ℝ) (t : GNode ℝ)
    (w h tx ty : ℝ)
    (hw : t.width = some w) (hh : t.height = some h)
    (hw0 : 0 < w) (hh0 : 0 < h)
    (hx : t.x = some tx) (hy : t.y = some ty)
    (hnc : ¬ (|tx - sp.1| < 1 / 1000000 ∧ |ty - sp.2| < 1 / 1000000)) :
    (tx - sp.1 ≠ 0 ∧ |(ty - sp.2) / (tx - sp.1)| < (h / 2) / (w / 2) →
      |(getRectEdgePoint sp t).1 - tx| = w / 2 ∧
      |(getRectEdgePoint sp t).2 - ty| ≤ h / 2) ∧
    (¬ (tx - sp.1 ≠ 0 ∧ |(ty - sp.2) / (tx - sp.1)| < (h / 2) / (w / 2)) →
      |(getRectEdgePoint sp t).2 - ty| = h / 2 ∧
      |(getRectEdgePoint sp t).1 - tx| ≤ w / 2) := by
  have hw2 : (0 : ℝ) < w / 2 := by linarith
  have hh2 : (0 : ℝ) < h / 2 := by linarith
  rw [getRectEdgePoint]
  simp only [hx, hy, hw, hh, Option.getD_some]
  rw [if_neg (by push_neg; constructor <;> positivity), if_neg hnc]
  set dx := tx - sp.1 with hdx
  set dy := ty - sp.2 with hdy
  constructor
  · intro hcond
    rw [if_pos hcond]
    have habs : |dy / dx| * (w / 2) < (h / 2) := by
      calc |dy / dx| * (w / 2) < ((h / 2) / (w / 2)) * (w / 2) := by
            exact mul_lt_mul_of_pos_right hcond.2 hw2
        _ = h / 2 := by field_simp
    by_cases hpos : dx > 0
    · rw [if_pos hpos]
      constructor
      · simp [abs_of_pos hw2]
      · have : ty - (w / 2) * (dy / dx) - ty = -((w / 2) * (dy / dx)) := by
          ring
        rw [this, abs_neg, abs_mul, abs_of_pos hw2]
        nlinarith [abs_nonneg (dy / dx)]
    · rw [if_neg hpos]
      constructor
      · simp [abs_of_pos hw2]
      · have : ty + (w / 2) * (dy / dx) - ty = (w / 2) * (dy / dx) := by
          ring
        rw [this, abs_mul, abs_of_pos hw2]
        nlinarith [abs_nonneg (dy / dx)]
  · intro hcond
    rw [if_neg hcond]
    push_neg at hcond
    have hdy0 : dy ≠ 0 := by
      by_cases hdx0 : dx = 0
      · intro hdy0
        exact hnc ⟨by simp [← hdx, hdx0], by simp [← hdy, hdy0]⟩
      · intro hdy0
        have := hcond hdx0
        rw [hdy0] at this
        simp only [zero_div, abs_zero] at this
        exact absurd this (not_le.mpr (by positivity))
    have habs : |dx / dy| * (h / 2) ≤ w / 2 := by
      by_cases hdx0 : dx = 0
      · rw [hdx0]
        simp only [zero_div, abs_zero, zero_mul]
        linarith
      · have h1 : (h / 2) / (w / 2) ≤ |dy| / |dx| := by
          rw [← abs_div]
          exact hcond hdx0
        have hdxa : (0 : ℝ) < |dx| := abs_pos.mpr hdx0
        have hdya : (0 : ℝ) < |dy| := abs_pos.mpr hdy0
        rw [abs_div]
        rw [div_le_div_iff hw2 hdxa] at h1
        rw [div_mul_eq_mul_div, div_le_iff hdya]
        nlinarith
    by_cases hpos : dy > 0
    · rw [if_pos hpos]
      constructor
      · simp [abs_of_pos hh2]
      · have : tx - (h / 2) * (dx / dy) - tx = -((h / 2) * (dx / dy)) := by
          ring
        rw [this, abs_neg, abs_mul, abs_of_pos hh2]
        calc (h / 2) * |dx / dy| = |dx / dy| * (h / 2) := by ring
          _ ≤ w / 2 := habs
    · rw [if_neg hpos]
      constructor
      · simp [abs_of_pos hh2]
      · have : tx + (h / 2) * (dx / dy) - tx = (h / 2) * (dx / dy) := by
          ring
        rw [this, abs_mul, abs_of_pos hh2]
        calc (h / 2) * |dx / dy| = |dx / dy| * (h / 2) := by ring
          _ ≤ w / 2 := habs

/-- Witness for C5: the center-to-center line from the origin to a node at
(100, 0) with a 150×50 rectangle has slope 0, below the ratio 25/75, so the
computed endpoint sits on the rectangle's left vertical edge. -/
theorem edge_point_on_rect_boundary_witness :
    ({ id := "B", width := some 150, height := some 50, x := some 100,
       y := some 0 } : GNode ℝ).width = some 150 ∧
    (¬ (|(100 : ℝ) - 0| < 1 / 1000000 ∧ |(0 : ℝ) - 0| < 1 / 1000000)) ∧
    ((100 : ℝ) - 0 ≠ 0 ∧
      |((0 : ℝ) - 0) / ((100 : ℝ) - 0)| < ((50 : ℝ) / 2) / ((150 : ℝ) / 2)) ∧
    (|(getRectEdgePoint ((0 : ℝ), (0 : ℝ))
        { id := "B", width := some 150, height := some 50, x := some 100,
          y := some 0 }).1 - 100| = 150 / 2 ∧
     |(getRectEdgePoint ((0 : ℝ), (0 : ℝ))
        { id := "B", width := some 150, height := some 50, x := some 100,
          y := some 0 }).2 - 0| ≤ 50 / 2) := by
  refine ⟨rfl, by norm_num, by norm_num, ?_⟩
  exact (edge_point_on_rect_boundary ((0 : ℝ), (0 : ℝ))
      { id := "B", width := some 150, height := some 50, x := some 100,
        y := some 0 } 150 50 100 0 rfl rfl (by norm_num) (by norm_num)
      rfl rfl (by norm_num)).1 (by norm_num)

/-! ## C6 — missing extents: center fallback, not a skip -/

/-- Helper: `getRectEdgePoint` with falsy width or height returns the
node's center. -/
theorem getRectEdgePoint_center_fallback (sp : ℝ × ℝ) (t : GNode ℝ)
    (h : t.width.getD 0 = 0 ∨ t.height.getD 0 = 0) :
    getRectEdgePoint sp t = (t.x.getD 0, t.y.getD 0) := by
  rw [getRectEdgePoint, if_pos h]

/-- Helper: `drawLink` draws (returns a path) whenever no endpoint
coordinate is falsy — regardless of extents. -/
theorem drawLink_isSome_of_coords (sN tN : GNode ℝ) (base : ℝ)
    (gc : Option (ℝ × ℝ))
    (h : ¬ (sN.x.getD 0 = 0 ∨ sN.y.getD 0 = 0 ∨ tN.x.getD 0 = 0 ∨
        tN.y.getD 0 = 0)) :
    (drawLink sN tN base gc).isSome = true := by
  rw [drawLink, if_neg h]
  cases gc <;> dsimp only <;> split <;> rfl

/-- Counterexample to C6: a source node with no width/height but valid
coordinates does not yield a "skip, do not draw" signal — `drawLink` still
draws a path. -/
theorem missing_extents_does_not_skip_counterexample :
    ({ id := "A", x := some 100, y := some 100 } : GNode ℝ).width = none ∧
    ({ id := "A", x := some 100, y := some 100 } : GNode ℝ).height = none ∧
    (drawLink { id := "A", x := some 100, y := some 100 }
      { id := "B", x := some 300, y := some 100, width := some 150,
        height := some 50 } 0 none).isSome = true :=
  ⟨rfl, rfl, drawLink_isSome_of_coords _ _ _ _ (by norm_num)⟩

/-- C6 (amended): missing width/height on a node does not throw and does
not skip the link; `getRectEdgePoint` falls back to that node's center, and
`drawLink` still draws a path whenever no endpoint coordinate is falsy. -/
theorem missing_extents_center_fallback_still_drawn :
    (∀ (sp : ℝ × ℝ) (t : GNode ℝ),
      t.width = none ∨ t.width = some 0 ∨ t.height = none ∨
        t.height = some 0 →
      getRectEdgePoint sp t = (t.x.getD 0, t.y.getD 0)) ∧
    (∀ (sN tN : GNode ℝ) (base : ℝ) (gc : Option (ℝ × ℝ)),
      ¬ (sN.x.getD 0 = 0 ∨ sN.y.getD 0 = 0 ∨ tN.x.getD 0 = 0 ∨
          tN.y.getD 0 = 0) →
      (drawLink sN tN base gc).isSome = true) := by
  constructor
  · intro sp t h
    refine getRectEdgePoint_center_fallback sp t ?_
    rcases h with h | h | h | h <;> simp [h]
  · exact drawLink_isSome_of_coords

/-- Witness for C6 (amended): a node with undefined extents at (7, 8) gets
its center as the edge point, and its link to a normal node is drawn. -/
theorem missing_extents_center_fallback_still_drawn_witness :
    (({ id := "A", x := some 7, y := some 8 } : GNode ℝ).width = none ∨
      ({ id := "A", x := some 7, y := some 8 } : GNode ℝ).width = some 0 ∨
      ({ id := "A", x := some 7, y := some 8 } : GNode ℝ).height = none ∨
      ({ id := "A", x := some 7, y := some 8 } : GNode ℝ).height = some 0) ∧
    getRectEdgePoint ((1 : ℝ), (2 : ℝ))
      { id := "A", x := some 7, y := some 8 } =
      (((7 : ℝ), (8 : ℝ)) : ℝ × ℝ) ∧
    (drawLink { id := "A", x := some 7, y := some 8 }
      { id := "B", x := some 300, y := some 100, width := some 150,
        height := some 50 } (3 / 10) none).isSome = true := by
  refine ⟨Or.inl rfl, ?_, ?_⟩
  · exact missing_extents_center_fallback_still_drawn.1 _ _ (Or.inl rfl)
  · exact missing_extents_center_fallback_still_drawn.2 _ _ _ _ (by norm_num)

/-! ## Direction-vector evaluation lemmas -/

theorem dirCos_pos (dx : ℝ) (h : 0 < dx) : dirCos dx 0 = 1 := by
  rw [dirCos, if_neg (by intro hc; exact absurd hc.1 (ne_of_gt h))]
  rw [show dx ^ 2 + (0 : ℝ) ^ 2 = dx ^ 2 by ring, Real.sqrt_sq h.le]
  exact div_self (ne_of_gt h)

theorem dirSin_of_ne (dx : ℝ) (h : dx ≠ 0) : dirSin dx 0 = 0 := by
  rw [dirSin, if_neg (by intro hc; exact h hc.1)]
  exact zero_div _

theorem dirSin_ne_zero (dx dy : ℝ) (hy : dy ≠ 0) : dirSin dx dy ≠ 0 := by
  rw [dirSin, if_neg (by intro hc; exact hy hc.2)]
  have hpos : 0 < Real.sqrt (dx ^ 2 + dy ^ 2) :=
    Real.sqrt_pos.mpr (by positivity)
  exact div_ne_zero hy (ne_of_gt hpos)

/-! ## Evaluating `drawLink` on a horizontal extent-less pair

All concrete geometry inputs below use two nodes without extents on a
common horizontal line, for which the rectangle-boundary step degrades to
the center fallback and every direction cosine/sine is rational. -/

theorem drawLink_horizontal (a b : GNode ℝ) (x1 x2 y base : ℝ)
    (gc : Option (ℝ × ℝ)) (K : ℝ)
    (ha : a.x = some x1) (hay : a.y = some y)
    (haw : a.width = none) (hah : a.height = none)
    (hb : b.x = some x2) (hby : b.y = some y)
    (hbw : b.width = none) (hbh : b.height = none)
    (h1 : x1 ≠ 0) (h2 : x2 ≠ 0) (hy : y ≠ 0) (hlt : x1 < x2)
    (hcurv : (match gc with
      | none => base
      | some c => dynamicCurvature (x1 + 3) y (x2 - 3) y base 1 0 c) = K) :
    drawLink a b base gc =
      (if K = 0 then
        some { path := .line (x1 + 3, y) (x2 - 3, y)
               curvature := K
               arrowCos := 1
               arrowSin := 0
               arrowP1 := arrowWing1 (x2 - 3, y) 1 0
               arrowP2 := arrowWing2 (x2 - 3, y) 1 0 }
      else
        some { path := .quad (x1 + 3, y)
                 ((x1 + x2) / 2, y - (x2 - x1) * K) (x2 - 3, y)
               curvature := K
               arrowCos := dirCos ((x2 - x1) / 2 - 3) ((x2 - x1) * K)
               arrowSin := dirSin ((x2 - x1) / 2 - 3) ((x2 - x1) * K)
               arrowP1 := arrowWing1 (x2 - 3, y)
                 (dirCos ((x2 - x1) / 2 - 3) ((x2 - x1) * K))
                 (dirSin ((x2 - x1) / 2 - 3) ((x2 - x1) * K))
               arrowP2 := arrowWing2 (x2 - 3, y)
                 (dirCos ((x2 - x1) / 2 - 3) ((x2 - x1) * K))
                 (dirSin ((x2 - x1) / 2 - 3) ((x2 - x1) * K)) }) := by
  have hdx : (0 : ℝ) < x2 - x1 := by linarith
  rw [drawLink, if_neg (by
    simp only [ha, hay, hb, hby, Option.getD_some]
    push_neg
    exact ⟨h1, hy, h2, hy⟩)]
  rw [getRectEdgePoint_center_fallback _ _ (Or.inl (by simp [haw])),
    getRectEdgePoint_center_fallback _ _ (Or.inl (by simp [hbw]))]
  simp only [ha, hay, hb, hby, Option.getD_some, sub_self]
  rw [dirCos_pos _ hdx, dirSin_of_ne _ (ne_of_gt hdx)]
  simp only [mul_one, mul_zero, add_zero, sub_zero]
  rw [hcurv]
  by_cases hK : K = 0
  · rw [if_pos hK, if_pos hK]
  · rw [if_neg hK, if_neg hK]
    have hsq : Real.sqrt ((x2 - x1) ^ 2 + 0 ^ 2) = x2 - x1 := by
      rw [show (x2 - x1) ^ 2 + (0 : ℝ) ^ 2 = (x2 - x1) ^ 2 by ring,
        Real.sqrt_sq hdx.le]
    rw [hsq]
    have hctrlX : (x1 + 3 + (x2 - 3)) / 2 + 0 * ((x2 - x1) * K) =
        (x1 + x2) / 2 := by ring
    have hctrlY : (y + y) / 2 + -1 * ((x2 - x1) * K) = y - (x2 - x1) * K := by
      ring
    rw [hctrlX, hctrlY]
    have he1 : x2 - 3 - (x1 + x2) / 2 = (x2 - x1) / 2 - 3 := by ring
    have he2 : y - (y - (x2 - x1) * K) = (x2 - x1) * K := by ring
    rw [he1, he2]

/-! ## C4 — the arrowhead is aligned with the curve tangent -/

/-- C4: whenever `drawLink` draws a curved (quadratic) path, the arrowhead
angle is the direction from the quadratic control point to the padded end
point (the curve tangent at the end); and this differs from the raw
source-to-target segment angle, exhibited on a concrete curved link whose
raw segment is horizontal while the tangent is not. -/
theorem arrowhead_angle_is_curve_tangent (sN tN : GNode ℝ) (base : ℝ)
    (gc : Option (ℝ × ℝ)) (d : LinkDraw) (s c e : ℝ × ℝ)
    (hd : drawLink sN tN base gc = some d) (hq : d.path = .quad s c e) :
    (d.arrowCos = dirCos (e.1 - c.1) (e.2 - c.2) ∧
     d.arrowSin = dirSin (e.1 - c.1) (e.2 - c.2)) ∧
    (∃ d', drawLink { id := "A", x := some 100, y := some 100 }
        { id := "B", x := some 400, y := some 100 } (1 / 2) none = some d' ∧
      d'.arrowSin ≠ dirSin (400 - 100) (100 - 100)) := by
  constructor
  · rw [drawLink] at hd
    split at hd
    · exact absurd hd (by simp)
    · dsimp only at hd
      split at hd
      · rw [Option.some_inj] at hd
        subst hd
        simp only [LinkDraw.path] at hq
        exact absurd hq (by simp)
      · rw [Option.some_inj] at hd
        subst hd
        simp only [LinkDraw.path, LinkPath.quad.injEq] at hq
        obtain ⟨rfl, rfl, rfl⟩ := hq
        exact ⟨rfl, rfl⟩
  · have heval := drawLink_horizontal
      { id := "A", x := some 100, y := some 100 }
      { id := "B", x := some 400, y := some 100 }
      100 400 100 (1 / 2) none (1 / 2)
      rfl rfl rfl rfl rfl rfl rfl rfl
      (by norm_num) (by norm_num) (by norm_num) (by norm_num) rfl
    rw [if_neg (by norm_num)] at heval
    refine ⟨_, heval, ?_⟩
    show dirSin ((400 - 100) / 2 - 3) ((400 - 100) * (1 / 2)) ≠
      dirSin (400 - 100) (100 - 100)
    rw [show ((100 : ℝ) - 100) = 0 by norm_num,
      dirSin_of_ne _ (by norm_num : (400 : ℝ) - 100 ≠ 0)]
    exact dirSin_ne_zero _ _ (by norm_num)

/-- Witness for C4: a concrete curved link; the arrowhead's direction
cosine/sine equal those of the vector from the control point to the padded
end point. -/
theorem arrowhead_angle_is_curve_tangent_witness :
    (drawLink { id := "A", x := some 10, y := some 10 }
        { id := "B", x := some 20, y := some 10 } 1 none =
      some { path := .quad (10 + 3, 10)
               ((10 + 20) / 2, 10 - (20 - 10) * 1) (20 - 3, 10)
             curvature := 1
             arrowCos := dirCos ((20 - 10) / 2 - 3) ((20 - 10) * 1)
             arrowSin := dirSin ((20 - 10) / 2 - 3) ((20 - 10) * 1)
             arrowP1 := arrowWing1 (20 - 3, 10)
               (dirCos ((20 - 10) / 2 - 3) ((20 - 10) * 1))
               (dirSin ((20 - 10) / 2 - 3) ((20 - 10) * 1))
             arrowP2 := arrowWing2 (20 - 3, 10)
               (dirCos ((20 - 10) / 2 - 3) ((20 - 10) * 1))
               (dirSin ((20 - 10) / 2 - 3) ((20 - 10) * 1)) }) ∧
    (({ path := .quad (10 + 3, 10)
          ((10 + 20) / 2, 10 - (20 - 10) * 1) (20 - 3, 10)
        curvature := 1
        arrowCos := dirCos ((20 - 10) / 2 - 3) ((20 - 10) * 1)
        arrowSin := dirSin ((20 - 10) / 2 - 3) ((20 - 10) * 1)
        arrowP1 := arrowWing1 (20 - 3, 10)
          (dirCos ((20 - 10) / 2 - 3) ((20 - 10) * 1))
          (dirSin ((20 - 10) / 2 - 3) ((20 - 10) * 1))
        arrowP2 := arrowWing2 (20 - 3, 10)
          (dirCos ((20 - 10) / 2 - 3) ((20 - 10) * 1))
          (dirSin ((20 - 10) / 2 - 3) ((20 - 10) * 1)) } : LinkDraw).arrowCos =
      dirCos (((20 : ℝ) - 3, (10 : ℝ)).1 -
          (((10 : ℝ) + 20) / 2, (10 : ℝ) - (20 - 10) * 1).1)
        (((20 : ℝ) - 3, (10 : ℝ)).2 -
          (((10 : ℝ) + 20) / 2, (10 : ℝ) - (20 - 10) * 1).2)) := by
  have heval := drawLink_horizontal
    { id := "A", x := some 10, y := some 10 }
    { id := "B", x := some 20, y := some 10 }
    10 20 10 1 none 1
    rfl rfl rfl rfl rfl rfl rfl rfl
    (by norm_num) (by norm_num) (by norm_num) (by norm_num) rfl
  rw [if_neg (by norm_num)] at heval
  refine ⟨heval, ?_⟩
  exact (arrowhead_angle_is_curve_tangent _ _ _ _ _ _ _ _ heval rfl).1.1

/-! ## C3 — the dynamic curvature's sign and magnitude -/

/-- Helper: the code's `Math.sqrt(1 - clamp(cosθ²))` equals
`|cross| / (‖u‖·‖v‖)` — the sine of the angle between the two vectors —
by the Lagrange identity `dot² + cross² = (‖u‖·‖v‖)²`. -/
theorem sqrt_one_sub_cos_sq (ux uy vx vy : ℝ)
    (hu : 0 < Real.sqrt (ux ^ 2 + uy ^ 2))
    (hv : 0 < Real.sqrt (vx ^ 2 + vy ^ 2)) :
    Real.sqrt (1 - max 0 (min 1 (((ux * vx + uy * vy) /
        (Real.sqrt (ux ^ 2 + uy ^ 2) * Real.sqrt (vx ^ 2 + vy ^ 2))) ^ 2))) =
      |ux * vy - uy * vx| /
        (Real.sqrt (ux ^ 2 + uy ^ 2) * Real.sqrt (vx ^ 2 + vy ^ 2)) := by
  set a := Real.sqrt (ux ^ 2 + uy ^ 2) with hadef
  set b := Real.sqrt (vx ^ 2 + vy ^ 2) with hbdef
  have ha2 : a ^ 2 = ux ^ 2 + uy ^ 2 := Real.sq_sqrt (by positivity)
  have hb2 : b ^ 2 = vx ^ 2 + vy ^ 2 := Real.sq_sqrt (by positivity)
  have hab : 0 < a * b := mul_pos hu hv
  have lagrange : (ux * vx + uy * vy) ^ 2 + (ux * vy - uy * vx) ^ 2 =
      (a * b) ^ 2 := by
    rw [mul_pow, ha2, hb2]; ring
  have hle : ((ux * vx + uy * vy) / (a * b)) ^ 2 ≤ 1 := by
    rw [div_pow, div_le_one (by positivity)]
    nlinarith [sq_nonneg (ux * vy - uy * vx)]
  rw [min_eq_right hle, max_eq_right (sq_nonneg _)]
  have hcross : (a * b) ^ 2 - (ux * vx + uy * vy) ^ 2 =
      (ux * vy - uy * vx) ^ 2 := by linarith
  have h1t : 1 - ((ux * vx + uy * vy) / (a * b)) ^ 2 =
      ((ux * vy - uy * vx) / (a * b)) ^ 2 := by
    rw [div_pow, div_pow, eq_div_iff (by positivity), sub_mul, one_mul,
      div_mul_cancel₀ _ (by positivity), hcross]
  rw [h1t, Real.sqrt_sq_eq_abs, abs_div, abs_of_pos hab]

/-- C3 (amended): when both guard lengths pass, the per-tick dynamic
curvature is the product of (a) the sign of the dot product between
(segment midpoint − centroid) and the segment normal, defaulting to +1 on a
zero dot product, and (b) the magnitude
`(|base| + 0.15) · sin θ · min(len/300, 1)` where `θ` is the angle between
the padded segment and the segment from its **start point to the
centroid** (not the centroid-to-midpoint direction); consequently the
magnitude vanishes exactly when the segment is parallel to the
start-to-centroid vector, and equals the full `(|base| + 0.15) · min(len/300, 1)`
when perpendicular to it. -/
theorem dynamic_curvature_formula (sx sy ex ey base cosA sinA cx cy : ℝ)
    (h1 : Real.sqrt ((ex - sx) ^ 2 + (ey - sy) ^ 2) > 1 / 1000000)
    (h2 : Real.sqrt ((cx - sx) ^ 2 + (cy - sy) ^ 2) > 1 / 1000000) :
    (dynamicCurvature sx sy ex ey base cosA sinA (cx, cy) =
      (if ((sx + ex) / 2 - cx) * sinA + ((sy + ey) / 2 - cy) * (-cosA) > 0
        then 1
        else if ((sx + ex) / 2 - cx) * sinA +
            ((sy + ey) / 2 - cy) * (-cosA) < 0 then -1 else 1) *
      ((|base| + 15 / 100) *
        (|(ex - sx) * (cy - sy) - (ey - sy) * (cx - sx)| /
          (Real.sqrt ((ex - sx) ^ 2 + (ey - sy) ^ 2) *
            Real.sqrt ((cx - sx) ^ 2 + (cy - sy) ^ 2))) *
        min (Real.sqrt ((ex - sx) ^ 2 + (ey - sy) ^ 2) / 300) 1)) ∧
    ((ex - sx) * (cy - sy) - (ey - sy) * (cx - sx) = 0 →
      dynamicCurvature sx sy ex ey base cosA sinA (cx, cy) = 0) ∧
    ((ex - sx) * (cx - sx) + (ey - sy) * (cy - sy) = 0 →
      |dynamicCurvature sx sy ex ey base cosA sinA (cx, cy)| =
        (|base| + 15 / 100) *
          min (Real.sqrt ((ex - sx) ^ 2 + (ey - sy) ^ 2) / 300) 1) := by
  have hu : 0 < Real.sqrt ((ex - sx) ^ 2 + (ey - sy) ^ 2) := by
    calc (0 : ℝ) < 1 / 1000000 := by norm_num
      _ < _ := h1
  have hv : 0 < Real.sqrt ((cx - sx) ^ 2 + (cy - sy) ^ 2) := by
    calc (0 : ℝ) < 1 / 1000000 := by norm_num
      _ < _ := h2
  have hmain : dynamicCurvature sx sy ex ey base cosA sinA (cx, cy) =
      (if ((sx + ex) / 2 - cx) * sinA + ((sy + ey) / 2 - cy) * (-cosA) > 0
        then 1
        else if ((sx + ex) / 2 - cx) * sinA +
            ((sy + ey) / 2 - cy) * (-cosA) < 0 then -1 else 1) *
      ((|base| + 15 / 100) *
        (|(ex - sx) * (cy - sy) - (ey - sy) * (cx - sx)| /
          (Real.sqrt ((ex - sx) ^ 2 + (ey - sy) ^ 2) *
            Real.sqrt ((cx - sx) ^ 2 + (cy - sy) ^ 2))) *
        min (Real.sqrt ((ex - sx) ^ 2 + (ey - sy) ^ 2) / 300) 1) := by
    rw [dynamicCurvature]
    dsimp only
    rw [if_pos h1, if_pos h2, sqrt_one_sub_cos_sq _ _ _ _ hu hv]
  refine ⟨hmain, ?_, ?_⟩
  · intro hzero
    rw [hmain, hzero]
    simp
  · intro hperp
    rw [hmain]
    have hcross2 : ((ex - sx) * (cy - sy) - (ey - sy) * (cx - sx)) ^ 2 =
        (Real.sqrt ((ex - sx) ^ 2 + (ey - sy) ^ 2) *
          Real.sqrt ((cx - sx) ^ 2 + (cy - sy) ^ 2)) ^ 2 := by
      rw [mul_pow, Real.sq_sqrt (by positivity), Real.sq_sqrt (by positivity)]
      linear_combination
        (-((ex - sx) * (cx - sx) + (ey - sy) * (cy - sy))) * hperp
    have habs : |(ex - sx) * (cy - sy) - (ey - sy) * (cx - sx)| =
        Real.sqrt ((ex - sx) ^ 2 + (ey - sy) ^ 2) *
          Real.sqrt ((cx - sx) ^ 2 + (cy - sy) ^ 2) := by
      have := congrArg Real.sqrt hcross2
      rwa [Real.sqrt_sq_eq_abs, Real.sqrt_sq (by positivity)] at this
    rw [habs, div_self (by positivity), mul_one, abs_mul]
    have hmag : |(|base| + 15 / 100) *
        min (Real.sqrt ((ex - sx) ^ 2 + (ey - sy) ^ 2) / 300) 1| =
        (|base| + 15 / 100) *
          min (Real.sqrt ((ex - sx) ^ 2 + (ey - sy) ^ 2) / 300) 1 := by
      refine abs_of_nonneg ?_
      have h0 : (0 : ℝ) ≤ |base| + 15 / 100 := by positivity
      have h0m : (0 : ℝ) ≤
          min (Real.sqrt ((ex - sx) ^ 2 + (ey - sy) ^ 2) / 300) 1 :=
        le_min (by positivity) (by norm_num)
      exact mul_nonneg h0 h0m
    rw [hmag]
    split_ifs <;> simp

/-- Evaluation: the dynamic curvature of the padded horizontal segment
(103,100)–(397,100) with base 0 and centroid (250, 296) — the centroid sits
on the perpendicular bisector, `sinθ = 4/5` (3-4-5 triangle from the start
point), distance factor `49/50`. -/
theorem dynamicCurvature_eval_296 :
    dynamicCurvature (100 + 3) 100 (400 - 3) 100 0 1 0 (250, 296) =
      147 / 1250 := by
  have e1 : Real.sqrt ((400 - 3 - (100 + 3) : ℝ) ^ 2 + ((100 : ℝ) - 100) ^ 2)
      = 294 := by
    rw [show ((400 - 3 - (100 + 3) : ℝ)) ^ 2 + ((100 : ℝ) - 100) ^ 2 =
      294 ^ 2 by norm_num, Real.sqrt_sq (by norm_num)]
  have e2 : Real.sqrt (((250 : ℝ) - (100 + 3)) ^ 2 +
      ((296 : ℝ) - 100) ^ 2) = 245 := by
    rw [show ((250 : ℝ) - (100 + 3)) ^ 2 + ((296 : ℝ) - 100) ^ 2 =
      245 ^ 2 by norm_num, Real.sqrt_sq (by norm_num)]
  have h := (dynamic_curvature_formula (100 + 3) 100 (400 - 3) 100 0 1 0
    250 296 (by rw [e1]; norm_num) (by rw [e2]; norm_num)).1
  rw [h, e1, e2, if_pos (by norm_num)]
  rw [show |((400 - 3 - (100 + 3) : ℝ)) * (296 - 100) -
      ((100 : ℝ) - 100) * (250 - (100 + 3))| = 57624 by
    rw [abs_of_pos (by norm_num)]; norm_num]
  rw [min_eq_left (by norm_num : ((294 : ℝ) / 300) ≤ 1)]
  norm_num

/-- Evaluation: same segment and base, centroid (250, 604) — also on the
perpendicular bisector, but `sinθ = 24/25` (7-24-25 triangle from the start
point). -/
theorem dynamicCurvature_eval_604 :
    dynamicCurvature (100 + 3) 100 (400 - 3) 100 0 1 0 (250, 604) =
      441 / 3125 := by
  have e1 : Real.sqrt ((400 - 3 - (100 + 3) : ℝ) ^ 2 + ((100 : ℝ) - 100) ^ 2)
      = 294 := by
    rw [show ((400 - 3 - (100 + 3) : ℝ)) ^ 2 + ((100 : ℝ) - 100) ^ 2 =
      294 ^ 2 by norm_num, Real.sqrt_sq (by norm_num)]
  have e2 : Real.sqrt (((250 : ℝ) - (100 + 3)) ^ 2 +
      ((604 : ℝ) - 100) ^ 2) = 525 := by
    rw [show ((250 : ℝ) - (100 + 3)) ^ 2 + ((604 : ℝ) - 100) ^ 2 =
      525 ^ 2 by norm_num, Real.sqrt_sq (by norm_num)]
  have h := (dynamic_curvature_formula (100 + 3) 100 (400 - 3) 100 0 1 0
    250 604 (by rw [e1]; norm_num) (by rw [e2]; norm_num)).1
  rw [h, e1, e2, if_pos (by norm_num)]
  rw [show |((400 - 3 - (100 + 3) : ℝ)) * (604 - 100) -
      ((100 : ℝ) - 100) * (250 - (100 + 3))| = 148176 by
    rw [abs_of_pos (by norm_num)]; norm_num]
  rw [min_eq_left (by norm_num : ((294 : ℝ) / 300) ≤ 1)]
  norm_num

/-- Evaluation: the claim-side sine factor (angle against the
centroid-to-midpoint direction) is 1 for the centroid (250, 296): the
midpoint is (250, 100), so centroid-to-midpoint is perpendicular to the
segment. -/
theorem specClaimSin_eval_296 :
    specClaimSin (100 + 3) 100 (400 - 3) 100 (250, 296) = 1 := by
  rw [specClaimSin]
  dsimp only
  rw [show Real.sqrt ((400 - 3 - (100 + 3) : ℝ) ^ 2 +
      ((100 : ℝ) - 100) ^ 2) = 294 by
    rw [show ((400 - 3 - (100 + 3) : ℝ)) ^ 2 + ((100 : ℝ) - 100) ^ 2 =
      294 ^ 2 by norm_num, Real.sqrt_sq (by norm_num)]]
  rw [show Real.sqrt (((100 + 3 + (400 - 3) : ℝ) / 2 - 250) ^ 2 +
      (((100 : ℝ) + 100) / 2 - 296) ^ 2) = 196 by
    rw [show ((100 + 3 + (400 - 3) : ℝ) / 2 - 250) ^ 2 +
      (((100 : ℝ) + 100) / 2 - 296) ^ 2 = 196 ^ 2 by norm_num,
      Real.sqrt_sq (by norm_num)]]
  rw [show |(400 - 3 - (100 + 3) : ℝ) * ((100 + 100) / 2 - 296) -
      ((100 : ℝ) - 100) * ((100 + 3 + (400 - 3)) / 2 - 250)| = 57624 by
    rw [show (400 - 3 - (100 + 3) : ℝ) * ((100 + 100) / 2 - 296) -
      ((100 : ℝ) - 100) * ((100 + 3 + (400 - 3)) / 2 - 250) = -57624 by
      norm_num, abs_neg, abs_of_pos (by norm_num)]]
  norm_num

/-- Evaluation: the claim-side sine factor is also 1 for the centroid
(250, 604). -/
theorem specClaimSin_eval_604 :
    specClaimSin (100 + 3) 100 (400 - 3) 100 (250, 604) = 1 := by
  rw [specClaimSin]
  dsimp only
  rw [show Real.sqrt ((400 - 3 - (100 + 3) : ℝ) ^ 2 +
      ((100 : ℝ) - 100) ^ 2) = 294 by
    rw [show ((400 - 3 - (100 + 3) : ℝ)) ^ 2 + ((100 : ℝ) - 100) ^ 2 =
      294 ^ 2 by norm_num, Real.sqrt_sq (by norm_num)]]
  rw [show Real.sqrt (((100 + 3 + (400 - 3) : ℝ) / 2 - 250) ^ 2 +
      (((100 : ℝ) + 100) / 2 - 604) ^ 2) = 504 by
    rw [show ((100 + 3 + (400 - 3) : ℝ) / 2 - 250) ^ 2 +
      (((100 : ℝ) + 100) / 2 - 604) ^ 2 = 504 ^ 2 by norm_num,
      Real.sqrt_sq (by norm_num)]]
  rw [show |(400 - 3 - (100 + 3) : ℝ) * ((100 + 100) / 2 - 604) -
      ((100 : ℝ) - 100) * ((100 + 3 + (400 - 3)) / 2 - 250)| = 148176 by
    rw [show (400 - 3 - (100 + 3) : ℝ) * ((100 + 100) / 2 - 604) -
      ((100 : ℝ) - 100) * ((100 + 3 + (400 - 3)) / 2 - 250) = -148176 by
      norm_num, abs_neg, abs_of_pos (by norm_num)]]
  norm_num

/-- Counterexample to C3: two centroids (250, 296) and (250, 604), both
exactly perpendicular to the same padded segment in the claim's
centroid-to-midpoint sense (claim-side sine factor 1 in both cases), same
base curvature and same distance factor — yet the code produces different
dynamic-curvature magnitudes (4/5 vs 24/25 of the maximum), so the
magnitude is not a function of the claimed angle. -/
theorem dynamic_magnitude_counterexample :
    specClaimSin (100 + 3) 100 (400 - 3) 100 (250, 296) =
      specClaimSin (100 + 3) 100 (400 - 3) 100 (250, 604) ∧
    (drawLink { id := "A", x := some 100, y := some 100 }
        { id := "B", x := some 400, y := some 100 } 0
        (some (250, 296))).map (fun d => |d.curvature|) =
      some (147 / 1250) ∧
    (drawLink { id := "A", x := some 100, y := some 100 }
        { id := "B", x := some 400, y := some 100 } 0
        (some (250, 604))).map (fun d => |d.curvature|) =
      some (441 / 3125) ∧
    ((147 : ℝ) / 1250 ≠ 441 / 3125) := by
  refine ⟨?_, ?_, ?_, by norm_num⟩
  · rw [specClaimSin_eval_296, specClaimSin_eval_604]
  · rw [drawLink_horizontal
      { id := "A", x := some 100, y := some 100 }
      { id := "B", x := some 400, y := some 100 }
      100 400 100 0 (some (250, 296)) (147 / 1250)
      rfl rfl rfl rfl rfl rfl rfl rfl
      (by norm_num) (by norm_num) (by norm_num) (by norm_num)
      dynamicCurvature_eval_296]
    rw [if_neg (by norm_num)]
    rw [Option.map_some']
    norm_num
  · rw [drawLink_horizontal
      { id := "A", x := some 100, y := some 100 }
      { id := "B", x := some 400, y := some 100 }
      100 400 100 0 (some (250, 604)) (441 / 3125)
      rfl rfl rfl rfl rfl rfl rfl rfl
      (by norm_num) (by norm_num) (by norm_num) (by norm_num)
      dynamicCurvature_eval_604]
    rw [if_neg (by norm_num)]
    rw [Option.map_some']
    norm_num

/-- Witness for C3 (amended): at a concrete aligned configuration — the
centroid (300, 100) lies on the segment's own line through its start point
— the dynamic curvature evaluates to exactly 0. -/
theorem dynamic_curvature_formula_witness :
    Real.sqrt (((397 : ℝ) - 103) ^ 2 + ((100 : ℝ) - 100) ^ 2) >
      1 / 1000000 ∧
    Real.sqrt (((300 : ℝ) - 103) ^ 2 + ((100 : ℝ) - 100) ^ 2) >
      1 / 1000000 ∧
    ((397 : ℝ) - 103) * ((100 : ℝ) - 100) -
      ((100 : ℝ) - 100) * ((300 : ℝ) - 103) = 0 ∧
    dynamicCurvature 103 100 397 100 0 1 0 (300, 100) = 0 := by
  have e1 : Real.sqrt (((397 : ℝ) - 103) ^ 2 + ((100 : ℝ) - 100) ^ 2) =
      294 := by
    rw [show ((397 : ℝ) - 103) ^ 2 + ((100 : ℝ) - 100) ^ 2 = 294 ^ 2 by
      norm_num, Real.sqrt_sq (by norm_num)]
  have e2 : Real.sqrt (((300 : ℝ) - 103) ^ 2 + ((100 : ℝ) - 100) ^ 2) =
      197 := by
    rw [show ((300 : ℝ) - 103) ^ 2 + ((100 : ℝ) - 100) ^ 2 = 197 ^ 2 by
      norm_num, Real.sqrt_sq (by norm_num)]
  refine ⟨by rw [e1]; norm_num, by rw [e2]; norm_num, by norm_num, ?_⟩
  exact (dynamic_curvature_formula 103 100 397 100 0 1 0 300 100
    (by rw [e1]; norm_num) (by rw [e2]; norm_num)).2.1 (by norm_num)

/-! ## C1 — the curvature assignment policy

The development below relates `linkCurvatures` (the fold the source
performs) to `specCurvature` (the specification's description: group by the
unordered endpoint pair, sort lexically, fan out).  The grouping key the
source actually uses is the string `min ++ "-" ++ max`, which identifies
two distinct unordered pairs whenever ids containing `'-'` make the joined
strings collide; the equivalence therefore holds under a dash-free
hypothesis, and a counterexample witnesses the collision. -/

theorem mapGet_mapSet (m : List (String × ℚ)) (k k' : String) (v : ℚ) :
    mapGet (mapSet m k v) k' = if k = k' then some v else mapGet m k' := by
  induction m with
  | nil => simp [mapSet, mapGet]
  | cons hd rest ih =>
      obtain ⟨a, b⟩ := hd
      by_cases hak : a = k
      · subst hak
        by_cases hk : a = k'
        · subst hk
          simp [mapSet, mapGet]
        · simp [mapSet, mapGet, hk]
      · by_cases hk : a = k'
        · subst hk
          simp [mapSet, mapGet, hak, Ne.symm hak]
        · simp [mapSet, mapGet, hak, hk, ih]

theorem mapGet_insertGrouped (acc : List (String × List GLink)) (l : GLink)
    (k : String) :
    mapGet (insertGrouped acc l) k =
      if pairKey l = k then some ((mapGet acc k).getD [] ++ [l])
      else mapGet acc k := by
  induction acc with
  | nil =>
      rw [insertGrouped]
      have hstep : mapGet [(pairKey l, [l])] k =
          if pairKey l = k then some [l] else
            mapGet ([] : List (String × List GLink)) k := by
        rw [mapGet]
        rfl
      by_cases hk : pairKey l = k
      · rw [hstep, if_pos hk, if_pos hk]
        rfl
      · rw [hstep, if_neg hk, if_neg hk]
  | cons hd rest ih =>
      obtain ⟨a, g⟩ := hd
      rw [insertGrouped]
      have hrest : mapGet ((a, g) :: rest) k =
          if a = k then some g else mapGet rest k := by rw [mapGet]
      by_cases hal : a = pairKey l
      · rw [if_pos hal]
        have hleft : mapGet ((a, g ++ [l]) :: rest) k =
            if a = k then some (g ++ [l]) else mapGet rest k := by rw [mapGet]
        rw [hleft, hrest]
        by_cases hk : a = k
        · rw [if_pos hk, if_pos (show pairKey l = k by rw [← hal]; exact hk),
            if_pos hk]
          rfl
        · rw [if_neg hk, if_neg hk,
            if_neg (show ¬ pairKey l = k by rw [← hal]; exact hk)]
      · rw [if_neg hal]
        have hleft : mapGet ((a, g) :: insertGrouped rest l) k =
            if a = k then some g else mapGet (insertGrouped rest l) k := by
          rw [mapGet]
        rw [hleft, hrest, ih]
        by_cases hk : a = k
        · have hplk : ¬ pairKey l = k := fun he => hal (hk.trans he.symm)
          rw [if_pos hk, if_neg hplk, if_pos hk]
        · rw [if_neg hk, if_neg hk]

theorem mapGet_foldl_insertGrouped_some (ls : List GLink)
    (acc : List (String × List GLink)) (k : String) (g : List GLink)
    (h : mapGet acc k = some g) :
    mapGet (ls.foldl insertGrouped acc) k =
      some (g ++ ls.filter (fun l => pairKey l = k)) := by
  induction ls generalizing acc g with
  | nil => simpa using h
  | cons l ls ih =>
      rw [List.foldl_cons]
      by_cases hk : pairKey l = k
      · have h2 : mapGet (insertGrouped acc l) k = some (g ++ [l]) := by
          rw [mapGet_insertGrouped, if_pos hk, h]
          rfl
        rw [ih _ _ h2]
        simp [List.filter_cons, hk]
      · have h2 : mapGet (insertGrouped acc l) k = some g := by
          rw [mapGet_insertGrouped, if_neg hk, h]
        rw [ih _ _ h2]
        simp [List.filter_cons, hk]

theorem mapGet_foldl_insertGrouped_none (ls : List GLink)
    (acc : List (String × List GLink)) (k : String)
    (h : mapGet acc k = none) :
    mapGet (ls.foldl insertGrouped acc) k =
      if ls.filter (fun l => pairKey l = k) = [] then none
      else some (ls.filter (fun l => pairKey l = k)) := by
  induction ls generalizing acc with
  | nil => simpa using h
  | cons l ls ih =>
      rw [List.foldl_cons]
      by_cases hk : pairKey l = k
      · have h2 : mapGet (insertGrouped acc l) k = some [l] := by
          rw [mapGet_insertGrouped, if_pos hk, h]
          rfl
        rw [mapGet_foldl_insertGrouped_some ls _ _ _ h2]
        simp [List.filter_cons, hk]
      · have h2 : mapGet (insertGrouped acc l) k = none := by
          rw [mapGet_insertGrouped, if_neg hk, h]
        rw [ih _ h2]
        simp [List.filter_cons, hk]

/-- The group stored under key `k` is exactly the sublist of links whose
`pairKey` is `k`, in order. -/
theorem mapGet_linkGroups (links : List GLink) (k : String) :
    mapGet (linkGroups links) k =
      if links.filter (fun l => pairKey l = k) = [] then none
      else some (links.filter (fun l => pairKey l = k)) :=
  mapGet_foldl_insertGrouped_none links [] k rfl

theorem mapGet_eq_none_iff {β : Type} (m : List (String × β)) (k : String) :
    mapGet m k = none ↔ k ∉ m.map Prod.fst := by
  induction m with
  | nil => simp [mapGet]
  | cons hd rest ih =>
      obtain ⟨a, b⟩ := hd
      by_cases h : a = k
      · simp [mapGet, h]
      · rw [mapGet, if_neg h, ih]
        simp only [List.map_cons, List.mem_cons]
        constructor
        · intro hk hcon
          rcases hcon with he | hm
          · exact h he.symm
          · exact hk hm
        · exact fun hk hm => hk (Or.inr hm)

theorem mapGet_split {β : Type} (m : List (String × β)) (k : String) (v : β)
    (h : mapGet m k = some v) :
    ∃ m₁ m₂, m = m₁ ++ (k, v) :: m₂ ∧ ∀ kg ∈ m₁, kg.1 ≠ k := by
  induction m with
  | nil => simp [mapGet] at h
  | cons hd rest ih =>
      obtain ⟨a, b⟩ := hd
      rw [mapGet] at h
      by_cases hk : a = k
      · rw [if_pos hk] at h
        obtain rfl : b = v := Option.some_inj.mp h
        subst hk
        exact ⟨[], rest, rfl, fun kg hm => absurd hm (List.not_mem_nil _)⟩
      · rw [if_neg hk] at h
        obtain ⟨m₁, m₂, heq, hne⟩ := ih h
        refine ⟨(a, b) :: m₁, m₂, by rw [heq]; rfl, ?_⟩
        intro kg hm
        rcases List.mem_cons.mp hm with rfl | hm'
        · exact hk
        · exact hne kg hm'

theorem keys_insertGrouped (acc : List (String × List GLink)) (l : GLink) :
    (insertGrouped acc l).map Prod.fst =
      if mapGet acc (pairKey l) = none then
        acc.map Prod.fst ++ [pairKey l]
      else acc.map Prod.fst := by
  induction acc with
  | nil => simp [insertGrouped, mapGet]
  | cons hd rest ih =>
      obtain ⟨a, g⟩ := hd
      by_cases hal : a = pairKey l
      · rw [insertGrouped, if_pos hal]
        have : mapGet ((a, g) :: rest) (pairKey l) = some g := by
          rw [mapGet, if_pos hal]
        rw [this]
        simp
      · rw [insertGrouped, if_neg hal]
        have hmg : mapGet ((a, g) :: rest) (pairKey l) =
            mapGet rest (pairKey l) := by
          rw [mapGet, if_neg hal]
        rw [List.map_cons, ih, hmg]
        by_cases hrest : mapGet rest (pairKey l) = none
        · rw [if_pos hrest, if_pos hrest, List.map_cons, List.cons_append]
        · rw [if_neg hrest, if_neg hrest, List.map_cons]

theorem keys_foldl_insertGrouped_nodup (ls : List GLink)
    (acc : List (String × List GLink))
    (h : (acc.map Prod.fst).Nodup) :
    ((ls.foldl insertGrouped acc).map Prod.fst).Nodup := by
  induction ls generalizing acc with
  | nil => exact h
  | cons l ls ih =>
      rw [List.foldl_cons]
      refine ih _ ?_
      rw [keys_insertGrouped]
      by_cases hn : mapGet acc (pairKey l) = none
      · rw [if_pos hn]
        have hnot : pairKey l ∉ acc.map Prod.fst :=
          (mapGet_eq_none_iff acc (pairKey l)).mp hn
        simp [List.nodup_append, h, hnot]
      · rw [if_neg hn]
        exact h

theorem keys_linkGroups_nodup (links : List GLink) :
    ((linkGroups links).map Prod.fst).Nodup :=
  keys_foldl_insertGrouped_nodup links [] (by simp)

theorem members_insertGrouped (acc : List (String × List GLink)) (l : GLink) :
    ∀ kg ∈ insertGrouped acc l, ∀ x ∈ kg.2,
      (∃ kg' ∈ acc, x ∈ kg'.2 ∧ kg'.1 = kg.1) ∨
        (x = l ∧ kg.1 = pairKey l) := by
  induction acc with
  | nil =>
      intro kg hm x hx
      rw [insertGrouped] at hm
      rcases List.mem_singleton.mp hm with rfl
      rcases List.mem_singleton.mp hx with rfl
      exact Or.inr ⟨rfl, rfl⟩
  | cons hd rest ih =>
      obtain ⟨a, g⟩ := hd
      intro kg hm x hx
      rw [insertGrouped] at hm
      by_cases hal : a = pairKey l
      · rw [if_pos hal] at hm
        rcases List.mem_cons.mp hm with rfl | hm'
        · rcases List.mem_append.mp hx with hg | hl
          · exact Or.inl ⟨(a, g), List.mem_cons_self _ _, hg, rfl⟩
          · rcases List.mem_singleton.mp hl with rfl
            exact Or.inr ⟨rfl, hal⟩
        · exact Or.inl ⟨kg, List.mem_cons_of_mem _ hm', hx, rfl⟩
      · rw [if_neg hal] at hm
        rcases List.mem_cons.mp hm with rfl | hm'
        · exact Or.inl ⟨(a, g), List.mem_cons_self _ _, hx, rfl⟩
        · rcases ih kg hm' x hx with ⟨kg', hkm, hxm, hkk⟩ | hr
          · exact Or.inl ⟨kg', List.mem_cons_of_mem _ hkm, hxm, hkk⟩
          · exact Or.inr hr

theorem members_foldl_insertGrouped (ls : List GLink) (S : List GLink)
    (acc : List (String × List GLink))
    (hacc : ∀ kg ∈ acc, ∀ x ∈ kg.2, x ∈ S ∧ pairKey x = kg.1)
    (hls : ∀ x ∈ ls, x ∈ S) :
    ∀ kg ∈ ls.foldl insertGrouped acc, ∀ x ∈ kg.2,
      x ∈ S ∧ pairKey x = kg.1 := by
  induction ls generalizing acc with
  | nil => exact hacc
  | cons l ls ih =>
      rw [List.foldl_cons]
      refine ih _ ?_ (fun x hx => hls x (List.mem_cons_of_mem _ hx))
      intro kg hm x hx
      rcases members_insertGrouped acc l kg hm x hx with
        ⟨kg', hkm, hxm, hkk⟩ | ⟨rfl, hkk⟩
      · obtain ⟨hxS, hpk⟩ := hacc kg' hkm x hxm
        exact ⟨hxS, hpk.trans hkk⟩
      · exact ⟨hls x (List.mem_cons_self _ _), hkk.symm⟩

theorem members_linkGroups (links : List GLink) :
    ∀ kg ∈ linkGroups links, ∀ x ∈ kg.2, x ∈ links ∧ pairKey x = kg.1 :=
  members_foldl_insertGrouped links links []
    (fun kg hm => absurd hm (List.not_mem_nil _)) (fun _ hx => hx)

theorem snd_mem_of_mem_enumFrom {α : Type} (il : ℕ × α) (n : ℕ)
    (l : List α) (h : il ∈ List.enumFrom n l) : il.2 ∈ l := by
  induction l generalizing n with
  | nil => cases h
  | cons x xs ih =>
      rw [List.enumFrom_cons] at h
      rcases List.mem_cons.mp h with rfl | h'
      · exact List.mem_cons_self _ _
      · exact List.mem_cons_of_mem _ (ih _ h')

theorem mapGet_setFold_not_mem (xs : List (ℕ × GLink))
    (g : ℕ × GLink → ℚ) (m : List (String × ℚ)) (nid : String)
    (h : ∀ il ∈ xs, il.2.id ≠ nid) :
    mapGet (xs.foldl (fun m' il => mapSet m' il.2.id (g il)) m) nid =
      mapGet m nid := by
  induction xs generalizing m with
  | nil => rfl
  | cons il xs ih =>
      rw [List.foldl_cons,
        ih _ (fun jl hj => h jl (List.mem_cons_of_mem _ hj)),
        mapGet_mapSet, if_neg (h il (List.mem_cons_self _ _))]

theorem mapGet_setFold_findIdx (xs : List GLink) (start : ℕ)
    (g : ℕ × GLink → ℚ) (m : List (String × ℚ)) (l : GLink)
    (hnd : (xs.map GLink.id).Nodup) (hl : l ∈ xs) :
    mapGet ((List.enumFrom start xs).foldl
        (fun m' il => mapSet m' il.2.id (g il)) m) l.id =
      some (g (start + xs.findIdx (fun x => x.id = l.id), l)) := by
  induction xs generalizing start m with
  | nil => cases hl
  | cons x xs ih =>
      rw [List.enumFrom_cons, List.foldl_cons]
      rw [List.map_cons, List.nodup_cons] at hnd
      by_cases hx : x.id = l.id
      · have hlx : l = x := by
          rcases List.mem_cons.mp hl with rfl | hmem
          · rfl
          · exact absurd (hx ▸ List.mem_map_of_mem GLink.id hmem) hnd.1
        subst hlx
        have hrest : ∀ il ∈ List.enumFrom (start + 1) xs,
            il.2.id ≠ l.id := by
          intro il hil hideq
          exact hnd.1 (hideq ▸
            List.mem_map_of_mem GLink.id (snd_mem_of_mem_enumFrom il _ _ hil))
        rw [mapGet_setFold_not_mem _ _ _ _ hrest, mapGet_mapSet, if_pos rfl]
        rw [List.findIdx_cons]
        simp
      · have hl' : l ∈ xs := by
          rcases List.mem_cons.mp hl with rfl | hmem
          · exact absurd rfl hx
          · exact hmem
        rw [ih _ _ hnd.2 hl', List.findIdx_cons]
        have hbx : (fun x => decide (x.id = l.id)) x = false := by
          simpa using hx
        simp only [hbx, cond_false]
        have : start + 1 + List.findIdx (fun x => decide (x.id = l.id)) xs =
            start + (List.findIdx (fun x => decide (x.id = l.id)) xs + 1) := by
          omega
        rw [this]

theorem mapGet_assignGroup_not_mem (m : List (String × ℚ))
    (g : List GLink) (nid : String) (h : ∀ x ∈ g, x.id ≠ nid) :
    mapGet (assignGroup m g) nid = mapGet m nid := by
  match g with
  | [] => rfl
  | [l] =>
      rw [show assignGroup m [l] = mapSet m l.id (15 / 100) from rfl,
        mapGet_mapSet, if_neg (h l (List.mem_cons_self _ _))]
  | a :: b :: t =>
      show mapGet ((List.enumFrom 0 (sortGroup (a :: b :: t))).foldl
        (fun m' il => mapSet m' il.2.id
          (((il.1 : ℚ) - (((a :: b :: t).length : ℚ) - 1) / 2) * (25 / 100)))
        m) nid = mapGet m nid
      refine mapGet_setFold_not_mem _ _ _ _ ?_
      intro il hil
      refine h il.2 ?_
      have hmem : il.2 ∈ sortGroup (a :: b :: t) :=
        snd_mem_of_mem_enumFrom il _ _ hil
      exact (List.mergeSort_perm (a :: b :: t) _).mem_iff.mp hmem

theorem mapGet_assignGroup_mem (m : List (String × ℚ)) (g : List GLink)
    (l : GLink) (hl : l ∈ g) (hnd : (g.map GLink.id).Nodup) :
    mapGet (assignGroup m g) l.id =
      some (if g.length ≤ 1 then 15 / 100
        else (((sortGroup g).findIdx (fun x => x.id = l.id) : ℚ) -
          ((g.length : ℚ) - 1) / 2) * (25 / 100)) := by
  match g with
  | [] => cases hl
  | [a] =>
      rcases List.mem_singleton.mp hl with rfl
      rw [show assignGroup m [l] = mapSet m l.id (15 / 100) from rfl,
        mapGet_mapSet, if_pos rfl, if_pos (by simp)]
  | a :: b :: t =>
      have hperm := List.mergeSort_perm (a :: b :: t)
        (fun x y => ! decide (y.id < x.id))
      have hlen : (sortGroup (a :: b :: t)).length = (a :: b :: t).length :=
        List.length_mergeSort ..
      have hnd' : ((sortGroup (a :: b :: t)).map GLink.id).Nodup :=
        ((hperm.map GLink.id).nodup_iff).mpr hnd
      have hl' : l ∈ sortGroup (a :: b :: t) := hperm.mem_iff.mpr hl
      have hE := mapGet_setFold_findIdx (sortGroup (a :: b :: t)) 0
        (fun il => ((il.1 : ℚ) - (((a :: b :: t).length : ℚ) - 1) / 2) *
          (25 / 100)) m l hnd' hl'
      rw [show assignGroup m (a :: b :: t) =
        (List.enumFrom 0 (sortGroup (a :: b :: t))).foldl
          (fun m' il => mapSet m' il.2.id
            (((il.1 : ℚ) - (((a :: b :: t).length : ℚ) - 1) / 2) *
              (25 / 100))) m from rfl, hE]
      rw [if_neg (by simp)]
      norm_num

theorem mapGet_groupsFold_not_mem (gs : List (String × List GLink))
    (m : List (String × ℚ)) (nid : String)
    (h : ∀ kg ∈ gs, ∀ x ∈ kg.2, x.id ≠ nid) :
    mapGet (gs.foldl (fun m' kg => assignGroup m' kg.2) m) nid =
      mapGet m nid := by
  induction gs generalizing m with
  | nil => rfl
  | cons kg gs ih =>
      rw [List.foldl_cons,
        ih _ (fun kg' h' => h kg' (List.mem_cons_of_mem _ h')),
        mapGet_assignGroup_not_mem _ _ _ (h kg (List.mem_cons_self _ _))]

theorem sep_cons_inj (sep : Char) (as bs cs ds : List Char)
    (ha : sep ∉ as) (hc : sep ∉ cs)
    (h : as ++ sep :: bs = cs ++ sep :: ds) : as = cs ∧ bs = ds := by
  induction as generalizing cs with
  | nil =>
      cases cs with
      | nil => simpa using h
      | cons c cs' =>
          rw [List.nil_append, List.cons_append] at h
          injection h with h1 h2
          exact absurd (h1 ▸ List.mem_cons_self c cs') hc
  | cons a as' ih =>
      cases cs with
      | nil =>
          rw [List.cons_append, List.nil_append] at h
          injection h with h1 h2
          exact absurd (h1.symm ▸ List.mem_cons_self a as') ha
      | cons c cs' =>
          rw [List.cons_append, List.cons_append] at h
          injection h with h1 h2
          obtain ⟨hac, hbd⟩ := ih cs'
            (fun hm => ha (List.mem_cons_of_mem _ hm))
            (fun hm => hc (List.mem_cons_of_mem _ hm)) h2
          exact ⟨by rw [h1, hac], hbd⟩

theorem append_dash_inj (a b c d : String)
    (ha : dashFree a) (hc : dashFree c) :
    a ++ "-" ++ b = c ++ "-" ++ d ↔ a = c ∧ b = d := by
  constructor
  · intro h
    have hdata := congrArg String.data h
    rw [String.data_append, String.data_append, String.data_append,
      String.data_append] at hdata
    have hsep : a.data ++ '-' :: b.data = c.data ++ '-' :: d.data := by
      simpa using hdata
    obtain ⟨h1, h2⟩ := sep_cons_inj '-' _ _ _ _ ha hc hsep
    exact ⟨String.ext h1, String.ext h2⟩
  · rintro ⟨rfl, rfl⟩
    rfl

/-- Under dash-free endpoint ids, the source's string key identifies
exactly the unordered endpoint pairs. -/
theorem pairKey_eq_iff (l₁ l₂ : GLink)
    (h1s : dashFree l₁.sourceId) (h1t : dashFree l₁.targetId)
    (h2s : dashFree l₂.sourceId) (h2t : dashFree l₂.targetId) :
    pairKey l₁ = pairKey l₂ ↔ sameEndpoints l₁ l₂ := by
  unfold pairKey sameEndpoints
  by_cases ha : l₁.sourceId < l₁.targetId <;>
    by_cases hb : l₂.sourceId < l₂.targetId
  · rw [if_pos ha, if_pos hb, append_dash_inj _ _ _ _ h1s h2s]
    constructor
    · exact Or.inl
    · rintro (h | ⟨he1, he2⟩)
      · exact h
      · exact absurd (he1 ▸ he2 ▸ hb) (lt_asymm ha)
  · rw [if_pos ha, if_neg hb, append_dash_inj _ _ _ _ h1s h2t]
    constructor
    · exact Or.inr
    · rintro (⟨he1, he2⟩ | h)
      · exact absurd (he1 ▸ he2 ▸ ha) hb
      · exact h
  · rw [if_neg ha, if_pos hb, append_dash_inj _ _ _ _ h1t h2s]
    constructor
    · rintro ⟨he1, he2⟩
      exact Or.inr ⟨he2, he1⟩
    · rintro (⟨he1, he2⟩ | ⟨he1, he2⟩)
      · exact absurd (show l₁.sourceId < l₁.targetId by
          rw [he1, he2]; exact hb) ha
      · exact ⟨he2, he1⟩
  · rw [if_neg ha, if_neg hb, append_dash_inj _ _ _ _ h1t h2t]
    constructor
    · rintro ⟨he1, he2⟩
      exact Or.inl ⟨he2, he1⟩
    · rintro (⟨he1, he2⟩ | ⟨he1, he2⟩)
      · exact ⟨he2, he1⟩
      · have ht1 : l₁.targetId ≤ l₁.sourceId := le_of_not_lt ha
        have ht2 : l₂.targetId ≤ l₂.sourceId := le_of_not_lt hb
        have hst : l₁.sourceId ≤ l₁.targetId := by
          calc l₁.sourceId = l₂.targetId := he1
            _ ≤ l₂.sourceId := ht2
            _ = l₁.targetId := he2.symm
        have heq : l₁.sourceId = l₁.targetId := le_antisymm hst ht1
        constructor
        · calc l₁.targetId = l₁.sourceId := heq.symm
            _ = l₂.targetId := he1
        · calc l₁.sourceId = l₁.targetId := heq
            _ = l₂.sourceId := he2

/-- The central equivalence: under dash-free endpoint ids and pairwise
distinct link ids, the map built by `linkCurvatures` assigns every link the
specification's curvature (unordered-pair grouping, lexical sort, symmetric
fan with step 0.25, singleton base 0.15). -/
theorem linkCurvatures_eq_spec (links : List GLink) (l : GLink)
    (hdash : ∀ x ∈ links, dashFree x.sourceId ∧ dashFree x.targetId)
    (hnd : (links.map GLink.id).Nodup) (hl : l ∈ links) :
    mapGet (linkCurvatures links) l.id = some (specCurvature links l) := by
  have hlG : l ∈ links.filter (fun x => pairKey x = pairKey l) :=
    List.mem_filter.mpr ⟨hl, by simp⟩
  have hGget : mapGet (linkGroups links) (pairKey l) =
      some (links.filter (fun x => pairKey x = pairKey l)) := by
    rw [mapGet_linkGroups, if_neg (List.ne_nil_of_mem hlG)]
  obtain ⟨gs₁, gs₂, hsplit, hne₁⟩ := mapGet_split _ _ _ hGget
  have hknd := keys_linkGroups_nodup links
  rw [hsplit, List.map_append, List.map_cons] at hknd
  have hknd2 : (pairKey l :: gs₂.map Prod.fst).Nodup :=
    ((List.nodup_append.mp hknd).2.1)
  have hk2 : ∀ kg ∈ gs₂, kg.1 ≠ pairKey l := by
    intro kg hm he
    exact (List.nodup_cons.mp hknd2).1
      (he ▸ List.mem_map_of_mem Prod.fst hm)
  have hid : ∀ kg : String × List GLink, kg ∈ linkGroups links →
      kg.1 ≠ pairKey l → ∀ x ∈ kg.2, x.id ≠ l.id := by
    intro kg hmem hkne x hx hxid
    obtain ⟨hxl, hpk⟩ := members_linkGroups links kg hmem x hx
    have hxeq : x = l := List.inj_on_of_nodup_map hnd hxl hl hxid
    exact hkne (hpk ▸ hxeq ▸ rfl)
  have hmem₁ : ∀ kg ∈ gs₁, kg ∈ linkGroups links := by
    intro kg hm
    rw [hsplit]
    exact List.mem_append.mpr (Or.inl hm)
  have hmem₂ : ∀ kg ∈ gs₂, kg ∈ linkGroups links := by
    intro kg hm
    rw [hsplit]
    exact List.mem_append.mpr (Or.inr (List.mem_cons_of_mem _ hm))
  have hndG : ((links.filter (fun x => pairKey x = pairKey l)).map
      GLink.id).Nodup :=
    List.Nodup.sublist (List.Sublist.map GLink.id (List.filter_sublist links))
      hnd
  rw [linkCurvatures, hsplit, List.foldl_append, List.foldl_cons]
  rw [mapGet_groupsFold_not_mem _ _ _
    (fun kg hkg => hid kg (hmem₂ kg hkg) (hk2 kg hkg))]
  rw [mapGet_assignGroup_mem _ _ l hlG hndG]
  have hfilter : links.filter (fun x => decide (sameEndpoints l x)) =
      links.filter (fun x => pairKey x = pairKey l) := by
    refine List.filter_congr ?_
    intro x hx
    have hiff : sameEndpoints l x ↔ pairKey x = pairKey l := by
      rw [pairKey_eq_iff x l (hdash x hx).1 (hdash x hx).2
        (hdash l hl).1 (hdash l hl).2]
      constructor
      · intro h
        rcases h with ⟨h1, h2⟩ | ⟨h1, h2⟩
        · exact Or.inl ⟨h1.symm, h2.symm⟩
        · exact Or.inr ⟨h2.symm, h1.symm⟩
      · intro h
        rcases h with ⟨h1, h2⟩ | ⟨h1, h2⟩
        · exact Or.inl ⟨h1.symm, h2.symm⟩
        · exact Or.inr ⟨h2.symm, h1.symm⟩
    simp [hiff]
  rw [specCurvature]
  have hglen : (specGroup links l).length =
      (links.filter (fun x => pairKey x = pairKey l)).length := by
    rw [specGroup, hfilter]
    exact List.length_mergeSort ..
  by_cases hlen : (links.filter (fun x => pairKey x = pairKey l)).length ≤ 1
  · rw [if_pos hlen, if_pos (by rw [hglen]; exact hlen)]
  · rw [if_neg hlen, if_neg (by rw [hglen]; exact hlen)]
    rw [show specGroup links l =
      sortGroup (links.filter (fun x => pairKey x = pairKey l)) by
      rw [specGroup, hfilter]]
    rw [sortGroup, List.length_mergeSort]

theorem str_lt_of_data {a b : String} (h : a.toList < b.toList) : a < b :=
  String.lt_iff_toList_lt.mpr h

theorem str_not_lt_of_data {a b : String} (h : ¬ a.toList < b.toList) :
    ¬ a < b := fun hl => h (String.lt_iff_toList_lt.mp hl)

/-- Evaluation of the specification's scenario: link "l1" on A–B and
parallel links "l2a"/"l2b" on B–C. -/
theorem scenario_curvatures :
    mapGet (linkCurvatures
      [⟨"l1", "A", "B"⟩, ⟨"l2a", "B", "C"⟩, ⟨"l2b", "B", "C"⟩]) "l1" =
      some (15 / 100) ∧
    mapGet (linkCurvatures
      [⟨"l1", "A", "B"⟩, ⟨"l2a", "B", "C"⟩, ⟨"l2b", "B", "C"⟩]) "l2a" =
      some (-(125 / 1000)) ∧
    mapGet (linkCurvatures
      [⟨"l1", "A", "B"⟩, ⟨"l2a", "B", "C"⟩, ⟨"l2b", "B", "C"⟩]) "l2b" =
      some (125 / 1000) := by
  have hsort : sortGroup [(⟨"l2a", "B", "C"⟩ : GLink), ⟨"l2b", "B", "C"⟩] =
      [⟨"l2a", "B", "C"⟩, ⟨"l2b", "B", "C"⟩] :=
    List.mergeSort_of_sorted (by
      refine List.pairwise_cons.mpr ⟨?_, List.pairwise_singleton _ _⟩
      intro b hb
      rcases List.mem_singleton.mp hb with rfl
      rw [decide_eq_false (str_not_lt_of_data (by decide))]
      rfl)
  have hk1 : pairKey ⟨"l1", "A", "B"⟩ = "A-B" := by
    rw [pairKey, if_pos (str_lt_of_data (by decide))]
    rfl
  have hk2 : pairKey ⟨"l2a", "B", "C"⟩ = "B-C" := by
    rw [pairKey, if_pos (str_lt_of_data (by decide))]
    rfl
  have hk3 : pairKey ⟨"l2b", "B", "C"⟩ = "B-C" := by
    rw [pairKey, if_pos (str_lt_of_data (by decide))]
    rfl
  refine ⟨?_, ?_, ?_⟩ <;>
    simp +decide [linkCurvatures, linkGroups, insertGrouped, hk1, hk2, hk3,
      assignGroup, hsort, mapSet, mapGet, List.enum, List.enumFrom]
  all_goals norm_num

/-- C1 (amended): under dash-free endpoint ids (the source's grouping key
joins the two ids with '-', so ids containing '-' can conflate distinct
unordered pairs) and distinct link ids, the curvature assignment is exactly
the specification's: grouped by the unordered endpoint pair, 0.15 for a
singleton group, `(i − (n−1)/2) × 0.25` for the i-th link of a lexically
sorted group of size n > 1; in particular the A–B/B–C scenario yields
0.15, −0.125, +0.125. -/
theorem curvature_assignment_matches_spec (links : List GLink) (l : GLink)
    (hdash : ∀ x ∈ links, dashFree x.sourceId ∧ dashFree x.targetId)
    (hnd : (links.map GLink.id).Nodup) (hl : l ∈ links) :
    mapGet (linkCurvatures links) l.id = some (specCurvature links l) ∧
    mapGet (linkCurvatures
      [⟨"l1", "A", "B"⟩, ⟨"l2a", "B", "C"⟩, ⟨"l2b", "B", "C"⟩]) "l1" =
      some (15 / 100) ∧
    mapGet (linkCurvatures
      [⟨"l1", "A", "B"⟩, ⟨"l2a", "B", "C"⟩, ⟨"l2b", "B", "C"⟩]) "l2a" =
      some (-(125 / 1000)) ∧
    mapGet (linkCurvatures
      [⟨"l1", "A", "B"⟩, ⟨"l2a", "B", "C"⟩, ⟨"l2b", "B", "C"⟩]) "l2b" =
      some (125 / 1000) :=
  ⟨linkCurvatures_eq_spec links l hdash hnd hl, scenario_curvatures.1,
    scenario_curvatures.2.1, scenario_curvatures.2.2⟩

/-- Witness for C1 (amended): the scenario link set satisfies the
hypotheses, and "l1" receives exactly its specification curvature. -/
theorem curvature_assignment_matches_spec_witness :
    (∀ x ∈ ([⟨"l1", "A", "B"⟩, ⟨"l2a", "B", "C"⟩,
        ⟨"l2b", "B", "C"⟩] : List GLink),
      dashFree x.sourceId ∧ dashFree x.targetId) ∧
    ((([⟨"l1", "A", "B"⟩, ⟨"l2a", "B", "C"⟩,
        ⟨"l2b", "B", "C"⟩] : List GLink).map GLink.id).Nodup) ∧
    ((⟨"l1", "A", "B"⟩ : GLink) ∈ ([⟨"l1", "A", "B"⟩,
        ⟨"l2a", "B", "C"⟩, ⟨"l2b", "B", "C"⟩] : List GLink)) ∧
    mapGet (linkCurvatures ([⟨"l1", "A", "B"⟩, ⟨"l2a", "B", "C"⟩,
        ⟨"l2b", "B", "C"⟩] : List GLink)) "l1" =
      some (specCurvature ([⟨"l1", "A", "B"⟩, ⟨"l2a", "B", "C"⟩,
        ⟨"l2b", "B", "C"⟩] : List GLink) ⟨"l1", "A", "B"⟩) :=
  ⟨by decide, by decide, by decide,
    (curvature_assignment_matches_spec
      ([⟨"l1", "A", "B"⟩, ⟨"l2a", "B", "C"⟩,
        ⟨"l2b", "B", "C"⟩] : List GLink)
      ⟨"l1", "A", "B"⟩ (by decide) (by decide) (by decide)).1⟩

/-- Counterexample to C1 as stated: with ids containing '-', the joined
grouping key conflates the distinct unordered pairs {a-b, c} and {a, b-c};
the claim puts "l1" alone in its group (base 0.15), but the code fans the
two links as one group and assigns "l1" the curvature −0.125. -/
theorem curvature_grouping_counterexample :
    specCurvature [⟨"l1", "a-b", "c"⟩, ⟨"l2", "a", "b-c"⟩]
      ⟨"l1", "a-b", "c"⟩ = 15 / 100 ∧
    mapGet (linkCurvatures [⟨"l1", "a-b", "c"⟩, ⟨"l2", "a", "b-c"⟩]) "l1" =
      some (-(125 / 1000)) ∧
    (-(125 / 1000) : ℚ) ≠ 15 / 100 := by
  have hsort : sortGroup [(⟨"l1", "a-b", "c"⟩ : GLink),
      ⟨"l2", "a", "b-c"⟩] = [⟨"l1", "a-b", "c"⟩, ⟨"l2", "a", "b-c"⟩] :=
    List.mergeSort_of_sorted (by
      refine List.pairwise_cons.mpr ⟨?_, List.pairwise_singleton _ _⟩
      intro b hb
      rcases List.mem_singleton.mp hb with rfl
      rw [decide_eq_false (str_not_lt_of_data (by decide))]
      rfl)
  have hk1 : pairKey ⟨"l1", "a-b", "c"⟩ = "a-b-c" := by
    rw [pairKey, if_pos (str_lt_of_data (by decide))]
    rfl
  have hk2 : pairKey ⟨"l2", "a", "b-c"⟩ = "a-b-c" := by
    rw [pairKey, if_pos (str_lt_of_data (by decide))]
    rfl
  refine ⟨?_, ?_, by norm_num⟩
  · simp +decide [specCurvature, specGroup, sameEndpoints, sortGroup]
  · simp +decide [linkCurvatures, linkGroups, insertGrouped, hk1, hk2,
      assignGroup, hsort, mapSet, mapGet, List.enum, List.enumFrom]
    norm_num

/-! ## C10 — the middle link of an odd parallel group -/

/-- Counterexample to C10 as stated: the middle link "m2" of a group of
three parallel links is assigned base curvature exactly 0, but it is *not*
rendered as a straight segment: in the rendering path a live graph centroid
is always supplied, and the dynamic re-signing gives base 0 the magnitude
`(0 + 0.15)·sinθ·distanceFactor`, which is nonzero off-axis — the drawn
path is a quadratic curve. -/
theorem middle_link_counterexample :
    mapGet (linkCurvatures [⟨"m1", "B", "C"⟩, ⟨"m2", "B", "C"⟩,
      ⟨"m3", "B", "C"⟩]) "m2" = some 0 ∧
    (drawLink { id := "A", x := some 100, y := some 100 }
        { id := "B", x := some 400, y := some 100 } 0
        (some (250, 296))).map (fun d => d.path.isLine) = some false := by
  constructor
  · have hsort : sortGroup [(⟨"m1", "B", "C"⟩ : GLink), ⟨"m2", "B", "C"⟩,
        ⟨"m3", "B", "C"⟩] =
        [⟨"m1", "B", "C"⟩, ⟨"m2", "B", "C"⟩, ⟨"m3", "B", "C"⟩] :=
      List.mergeSort_of_sorted (by
        refine List.pairwise_cons.mpr ⟨?_, ?_⟩
        · intro b hb
          rcases List.mem_cons.mp hb with rfl | hb'
          · rw [decide_eq_false (str_not_lt_of_data (by decide))]
            rfl
          · rcases List.mem_singleton.mp hb' with rfl
            rw [decide_eq_false (str_not_lt_of_data (by decide))]
            rfl
        · refine List.pairwise_cons.mpr ⟨?_, List.pairwise_singleton _ _⟩
          intro b hb
          rcases List.mem_singleton.mp hb with rfl
          rw [decide_eq_false (str_not_lt_of_data (by decide))]
          rfl)
    have hk1 : pairKey ⟨"m1", "B", "C"⟩ = "B-C" := by
      rw [pairKey, if_pos (str_lt_of_data (by decide))]
      rfl
    have hk2 : pairKey ⟨"m2", "B", "C"⟩ = "B-C" := by
      rw [pairKey, if_pos (str_lt_of_data (by decide))]
      rfl
    have hk3 : pairKey ⟨"m3", "B", "C"⟩ = "B-C" := by
      rw [pairKey, if_pos (str_lt_of_data (by decide))]
      rfl
    simp +decide [linkCurvatures, linkGroups, insertGrouped, hk1, hk2, hk3,
      assignGroup, hsort, mapSet, mapGet, List.enum, List.enumFrom]
    norm_num
  · rw [drawLink_horizontal
      { id := "A", x := some 100, y := some 100 }
      { id := "B", x := some 400, y := some 100 }
      100 400 100 0 (some (250, 296)) (147 / 1250)
      rfl rfl rfl rfl rfl rfl rfl rfl
      (by norm_num) (by norm_num) (by norm_num) (by norm_num)
      dynamicCurvature_eval_296]
    rw [if_neg (by norm_num), Option.map_some']
    rfl

/-- C10 (amended): the middle link (lexical index `(n−1)/2`) of an odd
parallel group of size n > 1 is assigned base curvature exactly 0, unlike a
singleton group's 0.15 — but it is rendered as a straight segment only when
no graph centroid is supplied to `drawLink` (the base-0 curvature then
survives to the drawing branch); with the live centroid the dynamic
magnitude is generally nonzero. -/
theorem middle_link_zero_base (links : List GLink) (l : GLink)
    (hdash : ∀ x ∈ links, dashFree x.sourceId ∧ dashFree x.targetId)
    (hnd : (links.map GLink.id).Nodup) (hl : l ∈ links)
    (hbig : 1 < (specGroup links l).length)
    (hmid : 2 * (specGroup links l).findIdx (fun x => x.id = l.id) =
      (specGroup links l).length - 1) :
    mapGet (linkCurvatures links) l.id = some 0 ∧
    (∀ sN tN : GNode ℝ,
      ¬ (sN.x.getD 0 = 0 ∨ sN.y.getD 0 = 0 ∨ tN.x.getD 0 = 0 ∨
          tN.y.getD 0 = 0) →
      (drawLink sN tN 0 none).map (fun d => d.path.isLine) = some true) := by
  constructor
  · rw [linkCurvatures_eq_spec links l hdash hnd hl]
    rw [specCurvature]
    rw [if_neg (by omega)]
    have hcast : (((specGroup links l).findIdx
        (fun x => x.id = l.id) : ℚ)) =
        (((specGroup links l).length : ℚ) - 1) / 2 := by
      have h1 : (1 : ℕ) ≤ (specGroup links l).length := by omega
      have h2 : ((specGroup links l).length - 1 : ℕ) =
          2 * (specGroup links l).findIdx (fun x => x.id = l.id) := hmid.symm
      have h3 : (((specGroup links l).length : ℚ) - 1) =
          2 * ((specGroup links l).findIdx (fun x => x.id = l.id) : ℚ) := by
        have := congrArg (fun n : ℕ => (n : ℚ)) h2
        push_cast at this
        rw [← this]
        push_cast [Nat.cast_sub h1]
        ring
      rw [h3]
      ring
    rw [hcast]
    norm_num
  · intro sN tN h
    rw [drawLink, if_neg h]
    dsimp only
    rw [if_pos rfl, Option.map_some']
    rfl

/-- Witness for C10 (amended): the three parallel links "m1"/"m2"/"m3";
"m2" is the lexical middle and gets base 0; with no centroid and base 0 a
concrete link is drawn straight. -/
theorem middle_link_zero_base_witness :
    (∀ x ∈ ([⟨"m1", "B", "C"⟩, ⟨"m2", "B", "C"⟩,
        ⟨"m3", "B", "C"⟩] : List GLink),
      dashFree x.sourceId ∧ dashFree x.targetId) ∧
    ((([⟨"m1", "B", "C"⟩, ⟨"m2", "B", "C"⟩,
        ⟨"m3", "B", "C"⟩] : List GLink).map GLink.id).Nodup) ∧
    ((⟨"m2", "B", "C"⟩ : GLink) ∈ ([⟨"m1", "B", "C"⟩, ⟨"m2", "B", "C"⟩,
        ⟨"m3", "B", "C"⟩] : List GLink)) ∧
    mapGet (linkCurvatures ([⟨"m1", "B", "C"⟩, ⟨"m2", "B", "C"⟩,
      ⟨"m3", "B", "C"⟩] : List GLink)) "m2" = some 0 ∧
    (drawLink { id := "A", x := some 50, y := some 60 }
      { id := "B", x := some 70, y := some 60 } 0 none).map
        (fun d => d.path.isLine) = some true := by
  have hsort : sortGroup [(⟨"m1", "B", "C"⟩ : GLink), ⟨"m2", "B", "C"⟩,
      ⟨"m3", "B", "C"⟩] =
      [⟨"m1", "B", "C"⟩, ⟨"m2", "B", "C"⟩, ⟨"m3", "B", "C"⟩] :=
    List.mergeSort_of_sorted (by
      refine List.pairwise_cons.mpr ⟨?_, ?_⟩
      · intro b hb
        rcases List.mem_cons.mp hb with rfl | hb'
        · rw [decide_eq_false (str_not_lt_of_data (by decide))]
          rfl
        · rcases List.mem_singleton.mp hb' with rfl
          rw [decide_eq_false (str_not_lt_of_data (by decide))]
          rfl
      · refine List.pairwise_cons.mpr ⟨?_, List.pairwise_singleton _ _⟩
        intro b hb
        rcases List.mem_singleton.mp hb with rfl
        rw [decide_eq_false (str_not_lt_of_data (by decide))]
        rfl)
  have hspec : specGroup ([⟨"m1", "B", "C"⟩, ⟨"m2", "B", "C"⟩,
      ⟨"m3", "B", "C"⟩] : List GLink) ⟨"m2", "B", "C"⟩ =
      [⟨"m1", "B", "C"⟩, ⟨"m2", "B", "C"⟩, ⟨"m3", "B", "C"⟩] := by
    rw [specGroup, show ([⟨"m1", "B", "C"⟩, ⟨"m2", "B", "C"⟩,
      ⟨"m3", "B", "C"⟩] : List GLink).filter
        (fun x => decide (sameEndpoints ⟨"m2", "B", "C"⟩ x)) =
      [⟨"m1", "B", "C"⟩, ⟨"m2", "B", "C"⟩, ⟨"m3", "B", "C"⟩] by
        simp +decide [sameEndpoints], hsort]
  have hmain := middle_link_zero_base
    ([⟨"m1", "B", "C"⟩, ⟨"m2", "B", "C"⟩, ⟨"m3", "B", "C"⟩] : List GLink)
    ⟨"m2", "B", "C"⟩ (by decide) (by decide) (by decide)
    (by rw [hspec]; decide) (by rw [hspec]; decide)
  exact ⟨by decide, by decide, by decide, hmain.1,
    hmain.2 _ _ (by norm_num)⟩

end CollabGraph
